import Mathlib

/-!
Verification development for the galaxy database tool (galaxy_db.py).

The SQLite-backed store is embedded shallowly: each table is a list of rows,
`INSERT OR REPLACE` is delete-matching-then-append, point lookup is first
match.  Python floats are modelled as exact rationals; wall-clock timestamps
are explicit rational parameters.  The source returns Euclidean distances as
`sqrt(dist_sq)`; the embedding carries the squared distance `dist_sq`
(a rational), and theorems about "true Euclidean distance" are stated via
`Real.sqrt` of that value.  Since `sqrt` is strictly monotone on nonnegative
reals, comparisons of squared distances coincide with comparisons of the
distances the source computes.
-/

set_option autoImplicit false

/-- Grid cell size, `GRID = 25.0` in the source. -/
def GRID : ℚ := 25

/-- `SystemData` dataclass: the projection of a systems row returned by queries. -/
structure SystemData where
  id64 : Int
  x : ℚ
  y : ℚ
  z : ℚ
  name : String
  mainStar : String
  deriving DecidableEq

/-- `PopulationData` dataclass; also the row shape of the `population_data` table. -/
structure PopulationData where
  id64 : Int
  population : Option Int
  security : String
  controllingFaction : String
  primaryEconomy : String
  secondaryEconomy : String
  deriving DecidableEq

/-- A row of the `systems` table: id64 (PRIMARY KEY), grid coordinates,
exact coordinates, name, main star. -/
structure SystemRow where
  id64 : Int
  grid_x : Int
  grid_y : Int
  grid_z : Int
  x : ℚ
  y : ℚ
  z : ℚ
  name : String
  main_star : String
  deriving DecidableEq

/-- `SELECT id64, x, y, z, name, main_star` projection of a systems row. -/
def toSystemData (r : SystemRow) : SystemData :=
  ⟨r.id64, r.x, r.y, r.z, r.name, r.main_star⟩

/-- The database state: the `systems` table and the `population_data` table. -/
structure GalaxyDatabase where
  systems : List SystemRow
  pops : List PopulationData
  deriving DecidableEq

/-- `gkey`: calculate grid coordinates from full coordinates,
`(int(floor(x/GRID)), int(floor(y/GRID)), int(floor(z/GRID)))`. -/
def gkey (x y z : ℚ) : Int × Int × Int :=
  (⌊x / GRID⌋, ⌊y / GRID⌋, ⌊z / GRID⌋)

/-- `is_any_faction`: the "any faction" sentinel test, `name == "ANY"`. -/
def is_any_faction (name : String) : Bool :=
  name == "ANY"

/-- `INSERT OR REPLACE` keyed on `key`: SQLite deletes any conflicting row and
inserts the new one. -/
def upsertBy {α : Type} (key : α → Int) (t : List α) (r : α) : List α :=
  t.filter (fun s => key s != key r) ++ [r]

/-- `get_system_by_id64`: first row with the given id64, projected. -/
def get_system_by_id64 (db : GalaxyDatabase) (id64 : Int) : Option SystemData :=
  (db.systems.find? (fun r => r.id64 == id64)).map toSystemData

/-- `get_system_by_name`: first row with the given name, projected. -/
def get_system_by_name (db : GalaxyDatabase) (name : String) : Option SystemData :=
  (db.systems.find? (fun r => r.name == name)).map toSystemData

/-- `get_population_by_id64`: first population row with the given id64. -/
def get_population_by_id64 (db : GalaxyDatabase) (id64 : Int) : Option PopulationData :=
  db.pops.find? (fun p => p.id64 == id64)

/-- `query_grid_cell_range`: all systems whose grid coordinates lie in the
inclusive per-axis ranges (`BETWEEN ? AND ?` on each axis). -/
def query_grid_cell_range (db : GalaxyDatabase)
    (min_gx max_gx min_gy max_gy min_gz max_gz : Int) : List SystemData :=
  (db.systems.filter (fun r =>
    decide (min_gx ≤ r.grid_x ∧ r.grid_x ≤ max_gx ∧
            min_gy ≤ r.grid_y ∧ r.grid_y ≤ max_gy ∧
            min_gz ≤ r.grid_z ∧ r.grid_z ≤ max_gz))).map toSystemData

/-- `query_systems_by_radius`: compute the bucket range covering
`[center - radius, center + radius]` per axis, scan it, and keep systems with
`dist_sq <= radius_sq`, attaching the population record and the distance.
The third component is the squared distance `dist_sq`; the source returns
`sqrt(dist_sq)`. -/
def query_systems_by_radius (db : GalaxyDatabase)
    (center_x center_y center_z radius : ℚ) :
    List (SystemData × Option PopulationData × ℚ) :=
  let min_gx := ⌊(center_x - radius) / GRID⌋
  let max_gx := ⌊(center_x + radius) / GRID⌋
  let min_gy := ⌊(center_y - radius) / GRID⌋
  let max_gy := ⌊(center_y + radius) / GRID⌋
  let min_gz := ⌊(center_z - radius) / GRID⌋
  let max_gz := ⌊(center_z + radius) / GRID⌋
  let candidate_systems := query_grid_cell_range db
    min_gx max_gx min_gy max_gy min_gz max_gz
  candidate_systems.filterMap (fun system =>
    let dx := system.x - center_x
    let dy := system.y - center_y
    let dz := system.z - center_z
    let dist_sq := dx * dx + dy * dy + dz * dz
    if dist_sq ≤ radius * radius then
      some (system, get_population_by_id64 db system.id64, dist_sq)
    else none)

/-- `query_systems_by_faction`: `population_data JOIN systems ON id64`, keeping
rows whose controlling faction equals the name, or is non-empty under the
"ANY" sentinel. -/
def query_systems_by_faction (db : GalaxyDatabase) (faction_name : String) :
    List (SystemData × PopulationData) :=
  let any_faction := is_any_faction faction_name
  db.pops.flatMap (fun p =>
    if (if any_faction then p.controllingFaction != "" else p.controllingFaction == faction_name) then
      (db.systems.filter (fun r => r.id64 == p.id64)).map (fun r => (toSystemData r, p))
    else [])

/-- A generic insertion-ordered dictionary (Python `dict`): replacing an
existing key keeps its position, a new key is appended. -/
def dictInsert {α : Type} (m : List (Int × α)) (k : Int) (v : α) : List (Int × α) :=
  if (m.find? (fun e => e.1 == k)).isSome then
    m.map (fun e => if e.1 == k then (k, v) else e)
  else m ++ [(k, v)]

/-- Python `dict` lookup. -/
def dictGet {α : Type} (m : List (Int × α)) (k : Int) : Option α :=
  (m.find? (fun e => e.1 == k)).map (fun e => e.2)

/-- Build a dict from a list of values under a key function: the dict
comprehension `{key(v): v for v in l}` (later entries overwrite earlier). -/
def dictOf {α : Type} (key : α → Int) (l : List α) : List (Int × α) :=
  l.foldl (fun m v => dictInsert m (key v) v) []

/-- `get_systems_by_id64s`: dedup the input ids (Python `set`), fetch matching
rows in one query, build an id-keyed map, and read the map back in input
order. -/
def get_systems_by_id64s (db : GalaxyDatabase) (id64_list : List Int) :
    List (Option SystemData) :=
  if id64_list = [] then []
  else
    let unique_ids := id64_list.dedup
    let rows := db.systems.filter (fun r => decide (r.id64 ∈ unique_ids))
    let systems_map := dictOf (fun s => s.id64) (rows.map toSystemData)
    id64_list.map (fun i => dictGet systems_map i)

/-- `get_populations_by_id64s`: as `get_systems_by_id64s` for the population
table. -/
def get_populations_by_id64s (db : GalaxyDatabase) (id64_list : List Int) :
    List (Option PopulationData) :=
  if id64_list = [] then []
  else
    let unique_ids := id64_list.dedup
    let rows := db.pops.filter (fun p => decide (p.id64 ∈ unique_ids))
    let populations_map := dictOf (fun p => p.id64) rows
    id64_list.map (fun i => dictGet populations_map i)

/-- Raw `coords` object of a systems snapshot record; each axis key may be
missing. -/
structure RawCoords where
  x : Option ℚ
  y : Option ℚ
  z : Option ℚ
  deriving DecidableEq

/-- A parsed JSON object from a systems snapshot: every key the ingestion
reads may be missing. -/
structure RawSystem where
  id64 : Option Int
  name : Option String
  mainStar : Option String
  coords : Option RawCoords
  deriving DecidableEq

/-- The `controllingFaction` key of a population snapshot record: absent,
present but not a JSON object, or an object whose `name` key may be missing. -/
inductive CFacField where
  | absent : CFacField
  | notDict : CFacField
  | objF (name : Option String) : CFacField
  deriving DecidableEq

/-- A parsed JSON object from a population snapshot. -/
structure RawPop where
  id64 : Option Int
  population : Option Int
  security : Option String
  primaryEconomy : Option String
  secondaryEconomy : Option String
  controllingFaction : CFacField
  deriving DecidableEq

/-- One loop body of `update_systems`: field extraction in source order.
`obj['name']`, `obj['coords']`, `c['x']`, `c['y']`, `c['z']`, `obj['id64']`
raise `KeyError` when missing (there is no try/except in this loop, so the
error propagates); `obj.get('mainStar', "N/A")` defaults.  The grid columns
are computed by `gkey` from the coordinates. -/
def processSystemRecord (obj : RawSystem) : Except String SystemRow :=
  match obj.name with
  | none => .error "name"
  | some name =>
    let mainStar := obj.mainStar.getD "N/A"
    match obj.coords with
    | none => .error "coords"
    | some c =>
      match c.x with
      | none => .error "x"
      | some x =>
        match c.y with
        | none => .error "y"
        | some y =>
          match c.z with
          | none => .error "z"
          | some z =>
            match obj.id64 with
            | none => .error "id64"
            | some id64 =>
              let g := gkey x y z
              .ok ⟨id64, g.1, g.2.1, g.2.2, x, y, z, name, mainStar⟩

/-- `update_systems` restricted to the `systems` table state: upsert each
record in order; a record whose extraction raises aborts the whole
ingestion (the loop has no per-record exception handler). -/
def update_systems (t : List SystemRow) : List RawSystem → Except String (List SystemRow)
  | [] => .ok t
  | obj :: rest =>
    match processSystemRecord obj with
    | .error e => .error e
    | .ok row => update_systems (upsertBy (fun r => r.id64) t row) rest

/-- One loop body of `update_population_data`: `obj['id64']` raises `KeyError`
(caught by the per-record try/except, so the record is logged and skipped:
result `none`); `population`/`primaryEconomy` missing-or-falsy (`None`, `0`,
`''`) skips the record with `continue`; a `controllingFaction` that is absent
or not a dict yields the empty faction string. -/
def processPopRecord (obj : RawPop) : Option PopulationData :=
  match obj.id64 with
  | none => none
  | some id64 =>
    let population := obj.population
    let security := obj.security.getD ""
    let primary_economy := obj.primaryEconomy.getD ""
    let secondary_economy := obj.secondaryEconomy.getD ""
    if population = none ∨ population = some 0 ∨ primary_economy = "" then none
    else
      let controlling_faction :=
        match obj.controllingFaction with
        | .objF n => n.getD ""
        | _ => ""
      some ⟨id64, population, security, controlling_faction,
            primary_economy, secondary_economy⟩

/-- `update_population_data` restricted to the `population_data` table state:
each record is processed inside try/except, so skipped records (malformed or
unpopulated) never abort the loop. -/
def update_population_data (t : List PopulationData) (objs : List RawPop) :
    List PopulationData :=
  objs.foldl (fun acc obj =>
    match processPopRecord obj with
    | none => acc
    | some row => upsertBy (fun p => p.id64) acc row) t

/-- State of `AdaptiveUpdateTracker`. -/
structure AdaptiveUpdateTracker where
  batch_size : Int
  time_interval : ℚ
  time_check_batch : Int
  min_time_check_batch : Int
  max_time_check_batch : Int
  rate_smoothing : ℚ
  start_time : ℚ
  last_commit_time : ℚ
  last_commit_total : Int
  total_count : Int
  records_since_time_check : Int
  ema_rate : Option ℚ
  deriving DecidableEq

/-- `AdaptiveUpdateTracker.__init__` with an explicit construction time
(`time.time()` at construction). -/
def mkTracker (batch_size : Int) (time_interval : ℚ)
    (initial_time_check_batch min_time_check_batch max_time_check_batch : Int)
    (rate_smoothing : ℚ) (start_time : ℚ) : AdaptiveUpdateTracker :=
  { batch_size := batch_size
    time_interval := time_interval
    time_check_batch := initial_time_check_batch
    min_time_check_batch := min_time_check_batch
    max_time_check_batch := max_time_check_batch
    rate_smoothing := rate_smoothing
    start_time := start_time
    last_commit_time := start_time
    last_commit_total := 0
    total_count := 0
    records_since_time_check := 0
    ema_rate := none }

/-- Python `round` (banker's rounding: halves go to the even integer). -/
def pyRound (q : ℚ) : Int :=
  let f := ⌊q⌋
  let frac := q - f
  if frac < 1/2 then f
  else if 1/2 < frac then f + 1
  else if f % 2 = 0 then f else f + 1

/-- `AdaptiveUpdateTracker._reset_timer` at wall-clock time `now`. -/
def resetTimer (tr : AdaptiveUpdateTracker) (now : ℚ) : AdaptiveUpdateTracker :=
  let elapsed := now - tr.last_commit_time
  let records_since_commit := tr.total_count - tr.last_commit_total
  let tr1 :=
    if 0 < elapsed ∧ 0 < records_since_commit then
      let current_rate := (records_since_commit : ℚ) / elapsed
      let ema :=
        match tr.ema_rate with
        | none => current_rate
        | some e => tr.rate_smoothing * current_rate + (1 - tr.rate_smoothing) * e
      let new_batch := ema * tr.time_interval
      { tr with
        ema_rate := some ema
        time_check_batch :=
          pyRound (max (tr.min_time_check_batch : ℚ)
                       (min (tr.max_time_check_batch : ℚ) new_batch)) }
    else tr
  { tr1 with
    last_commit_time := now
    last_commit_total := tr1.total_count
    records_since_time_check := 0 }

/-- `AdaptiveUpdateTracker.should_commit` at wall-clock time `now`: returns
the commit decision and the next tracker state. -/
def should_commit (tr : AdaptiveUpdateTracker) (now : ℚ) :
    Bool × AdaptiveUpdateTracker :=
  let tr1 := { tr with
    total_count := tr.total_count + 1
    records_since_time_check := tr.records_since_time_check + 1 }
  if tr1.batch_size > 0 ∧ tr1.total_count % tr1.batch_size = 0 then
    (true, resetTimer tr1 now)
  else if tr1.records_since_time_check ≥ tr1.time_check_batch then
    let tr2 := { tr1 with records_since_time_check := 0 }
    if now - tr2.last_commit_time ≥ tr2.time_interval then
      (true, resetTimer tr2 now)
    else (false, tr2)
  else (false, tr1)

/-- Whether a `should_commit` call at time `now` would commit through the
time-based fallback path (the batch condition fails, the time check is
reached, and the elapsed time is at least `time_interval`). -/
def timePathFires (tr : AdaptiveUpdateTracker) (now : ℚ) : Bool :=
  if (tr.batch_size > 0 ∧ (tr.total_count + 1) % tr.batch_size = 0) then false
  else if (tr.records_since_time_check + 1 ≥ tr.time_check_batch ∧
           now - tr.last_commit_time ≥ tr.time_interval) then true
  else false

/-- Run `should_commit` on a list of call timestamps, recording for each call
the returned decision and whether the time-based path fired. -/
def runTracker (tr : AdaptiveUpdateTracker) : List ℚ → List (Bool × Bool)
  | [] => []
  | t :: ts =>
    let r := should_commit tr t
    (r.1, timePathFires tr t) :: runTracker r.2 ts

/-- Tracker state after `n` calls against the timestamp stream `f`. -/
def trackerStateAt (tr : AdaptiveUpdateTracker) (f : ℕ → ℚ) : ℕ → AdaptiveUpdateTracker
  | 0 => tr
  | n + 1 => (should_commit (trackerStateAt tr f n) (f n)).2

/-- The `n`-th call of the stream commits through the time-based path. -/
def eventuallyTimeCommit (tr : AdaptiveUpdateTracker) (f : ℕ → ℚ) : Prop :=
  ∃ n, timePathFires (trackerStateAt tr f n) (f n) = true

/-- Successive call timestamps at least one `time_interval` (5 seconds)
apart: fewer than `batch_size = 3` records arrive in any 5-second window. -/
def interArrivalSlow (f : ℕ → ℚ) : Prop :=
  ∀ n, f n + 5 ≤ f (n + 1)

/-- The unclaimed test used by candidate search:
`pop is None or pop.controllingFaction == ''`. -/
def unclaimedPop : Option PopulationData → Bool
  | none => true
  | some p => p.controllingFaction == ""

/-- The inner loop body of the candidate scan: skip the faction system
itself, keep unclaimed systems, and remember the smallest distance seen
(strictly smaller distances overwrite; ties keep the earlier entry). -/
def considerCandidate (faction_sys_id64 : Int) (m : List (Int × ℚ × Int))
    (c : SystemData × Option PopulationData × ℚ) : List (Int × ℚ × Int) :=
  if c.1.id64 == faction_sys_id64 then m
  else if unclaimedPop c.2.1 then
    match dictGet m c.1.id64 with
    | none => dictInsert m c.1.id64 (c.2.2, faction_sys_id64)
    | some cur =>
      if c.2.2 < cur.1 then dictInsert m c.1.id64 (c.2.2, faction_sys_id64) else m
  else m

/-- Step 1 of `find_colony_candidates`: determine the faction systems, either
by filtering a radius query around the named reference system (`none` when
that system does not exist: `sys.exit(1)`), or by the faction-scoped lookup. -/
def factionSystemsOf (db : GalaxyDatabase) (faction_name : String)
    (refOpt : Option (String × ℚ)) : Option (List (SystemData × PopulationData)) :=
  match refOpt with
  | some (ref_name, reference_range) =>
    match get_system_by_name db ref_name with
    | none => none
    | some ref_system =>
      some ((query_systems_by_radius db ref_system.x ref_system.y ref_system.z
              reference_range).filterMap (fun spd =>
        match spd.2.1 with
        | some pop =>
          if (pop.controllingFaction == faction_name) ||
             (is_any_faction faction_name && pop.controllingFaction != "") then
            some (spd.1, pop)
          else none
        | none => none))
  | none => some (query_systems_by_faction db faction_name)

/-- The candidate-tracking double loop of `find_colony_candidates`:
`candidate_info : id64 -> (distance, closest faction system id64)`
(distances squared in the embedding). -/
def gatherInfo (db : GalaxyDatabase) (candidate_range : ℚ)
    (faction_systems : List (SystemData × PopulationData)) : List (Int × ℚ × Int) :=
  faction_systems.foldl (fun m fsp =>
    (query_systems_by_radius db fsp.1.x fsp.1.y fsp.1.z candidate_range).foldl
      (fun m2 c => considerCandidate fsp.1.id64 m2 c) m) []

/-- The final verification step of `find_colony_candidates` on one tracked
candidate entry: look the system up in the freshly fetched map (skip when
absent), re-check it is still unclaimed, and emit the output tuple. -/
def finalizeCandidate (candidate_systems_map : List (Int × SystemData))
    (candidate_populations_map : List (Int × PopulationData))
    (e : Int × ℚ × Int) :
    Option (SystemData × Option PopulationData × ℚ × Int) :=
  match dictGet candidate_systems_map e.1 with
  | none => none
  | some s =>
    let pop := dictGet candidate_populations_map e.1
    if unclaimedPop pop then some (s, pop, e.2.1, e.2.2) else none

/-- `find_colony_candidates`: the list of verified colony candidates
`(system, population, distance_sq to closest faction system, its id64)`, or
`none` on the early exits (unknown reference system, no faction systems, no
candidates).  The final filter re-fetches rows by batch lookup and keeps only
still-unclaimed systems. -/
def find_colony_candidates (db : GalaxyDatabase) (faction_name : String)
    (refOpt : Option (String × ℚ)) (candidate_range : ℚ) :
    Option (List (SystemData × Option PopulationData × ℚ × Int)) :=
  match factionSystemsOf db faction_name refOpt with
  | none => none
  | some faction_systems =>
    if faction_systems.isEmpty then none
    else
      let candidate_info := gatherInfo db candidate_range faction_systems
      if candidate_info.isEmpty then none
      else
        let ids := candidate_info.map (fun e => e.1)
        let candidate_systems := get_systems_by_id64s db ids
        let candidate_populations := get_populations_by_id64s db ids
        let candidate_systems_map :=
          dictOf (fun s => s.id64) (candidate_systems.filterMap id)
        let candidate_populations_map :=
          dictOf (fun p => p.id64) (candidate_populations.filterMap id)
        some (candidate_info.filterMap
          (finalizeCandidate candidate_systems_map candidate_populations_map))

lemma dictGet_nil {α : Type} (k : Int) : dictGet ([] : List (Int × α)) k = none := rfl

lemma dictGet_insert_self {α : Type} (m : List (Int × α)) (k : Int) (v : α) :
    dictGet (dictInsert m k v) k = some v := by
  unfold dictInsert dictGet
  by_cases h : (m.find? (fun e => e.1 == k)).isSome
  · simp only [h, if_true]
    rw [List.find?_map]
    have hfun : ((fun (e : Int × α) => e.1 == k) ∘
        fun e => if e.1 == k then (k, v) else e) = (fun e => e.1 == k) := by
      funext e
      by_cases he : e.1 = k <;> simp [he]
    rw [hfun]
    obtain ⟨e, he⟩ := Option.isSome_iff_exists.mp h
    have hek : e.1 = k := by simpa using List.find?_some he
    rw [he]
    simp [hek]
  · simp only [h]
    rw [if_neg Bool.false_ne_true]
    have hnone : m.find? (fun e => e.1 == k) = none :=
      Option.not_isSome_iff_eq_none.mp h
    rw [List.find?_append, hnone]
    simp

lemma dictGet_insert_ne {α : Type} (m : List (Int × α)) (k : Int) (v : α)
    (k' : Int) (h : k' ≠ k) : dictGet (dictInsert m k v) k' = dictGet m k' := by
  unfold dictInsert dictGet
  by_cases hs : (m.find? (fun e => e.1 == k)).isSome
  · simp only [hs, if_true]
    rw [List.find?_map]
    have hfun : ((fun (e : Int × α) => e.1 == k') ∘
        fun e => if e.1 == k then (k, v) else e) = (fun e => e.1 == k') := by
      funext e
      by_cases he : e.1 = k
      · simp [he, (by simpa using h.symm : ¬k = k')]
      · simp [he]
    rw [hfun]
    cases hf : m.find? (fun e => e.1 == k') with
    | none => simp
    | some e =>
      have he : e.1 = k' := by simpa using List.find?_some hf
      have hek : ¬(e.1 = k) := by rw [he]; exact h
      simp [hek]
  · simp only [hs]
    rw [if_neg Bool.false_ne_true]
    rw [List.find?_append]
    have : List.find? (fun e => e.1 == k') [(k, v)] = none := by
      simp [(by simpa using h.symm : ¬k = k')]
    rw [this]
    cases m.find? (fun e => e.1 == k') <;> simp

lemma dictOf_fold_invariant {α : Type} (key : α → Int) (C : Int → α → Prop) :
    ∀ (l : List α) (m : List (Int × α)),
      (∀ k v, dictGet m k = some v → C k v) →
      (∀ v ∈ l, C (key v) v) →
      ∀ k v, dictGet (l.foldl (fun m v => dictInsert m (key v) v) m) k = some v → C k v := by
  intro l
  induction l with
  | nil => intro m hm _ k v h; exact hm k v h
  | cons a l ih =>
    intro m hm hl k v h
    refine ih (dictInsert m (key a) a) ?_ (fun v hv => hl v (List.mem_cons_of_mem _ hv)) k v h
    intro k' v' h'
    by_cases hk : k' = key a
    · subst hk
      rw [dictGet_insert_self] at h'
      cases h'
      exact hl a (List.mem_cons_self a l)
    · rw [dictGet_insert_ne _ _ _ _ hk] at h'
      exact hm k' v' h'

lemma dictGet_dictOf_some {α : Type} (key : α → Int) (l : List α) (k : Int) (v : α)
    (h : dictGet (dictOf key l) k = some v) : v ∈ l ∧ key v = k := by
  refine dictOf_fold_invariant key (fun k v => v ∈ l ∧ key v = k) l [] ?_ ?_ k v h
  · intro k v h
    simp [dictGet_nil] at h
  · intro v hv
    exact ⟨hv, rfl⟩

lemma dictGet_dictOf_of_mem_aux {α : Type} (key : α → Int) (v : α) :
    ∀ (l : List α) (m : List (Int × α)),
      (dictGet m (key v) = some v ∨ v ∈ l) →
      (∀ a ∈ l, key a = key v → a = v) →
      dictGet (l.foldl (fun m v => dictInsert m (key v) v) m) (key v) = some v := by
  intro l
  induction l with
  | nil =>
    intro m hin _
    rcases hin with h | h
    · exact h
    · simp at h
  | cons a l ih =>
    intro m hin hcoh
    refine ih (dictInsert m (key a) a) ?_ (fun b hb hkb => hcoh b (List.mem_cons_of_mem _ hb) hkb)
    by_cases hk : key a = key v
    · left
      have hav : a = v := hcoh a (List.mem_cons_self a l) hk
      subst hav
      rw [hk, dictGet_insert_self]
    · rcases hin with h | h
      · left
        rw [dictGet_insert_ne _ _ _ _ (fun hh => hk hh.symm)]
        exact h
      · rcases List.mem_cons.mp h with h | h
        · exact absurd (congrArg key h.symm) hk
        · right; exact h

lemma dictGet_dictOf_of_mem {α : Type} (key : α → Int) (l : List α) (v : α)
    (hv : v ∈ l) (hcoh : ∀ a ∈ l, ∀ b ∈ l, key a = key b → a = b) :
    dictGet (dictOf key l) (key v) = some v :=
  dictGet_dictOf_of_mem_aux key v l [] (Or.inr hv)
    (fun a ha hk => hcoh a ha v hv hk)

lemma dictGet_dictOf_eq_none {α : Type} (key : α → Int) (l : List α) (k : Int)
    (h : ∀ v ∈ l, key v ≠ k) : dictGet (dictOf key l) k = none := by
  by_contra hne
  cases hd : dictGet (dictOf key l) k with
  | none => exact hne hd
  | some v =>
    obtain ⟨hv, hk⟩ := dictGet_dictOf_some key l k v hd
    exact h v hv hk

lemma find?_filter_keyNe {α : Type} (key : α → Int) (t : List α) (r : α) (k : Int)
    (hk : key r ≠ k) :
    (t.filter (fun s => key s != key r)).find? (fun a => key a == k) =
      t.find? (fun a => key a == k) := by
  rw [List.find?_filter]
  congr 1
  funext a
  by_cases ha : key a = k
  · have h2 : ¬k = key r := fun h => hk h.symm
    simp [ha, h2]
  · simp [ha]

lemma find?_filter_keySelf {α : Type} (key : α → Int) (t : List α) (r : α) :
    (t.filter (fun s => key s != key r)).find? (fun a => key a == key r) = none := by
  rw [List.find?_eq_none]
  intro x hx
  have := List.of_mem_filter hx
  simp at this ⊢
  exact this

lemma find?_upsertBy {α : Type} (key : α → Int) (t : List α) (r : α) (k : Int) :
    (upsertBy key t r).find? (fun a => key a == k) =
      if key r = k then some r else t.find? (fun a => key a == k) := by
  unfold upsertBy
  rw [List.find?_append]
  by_cases h : key r = k
  · subst h
    rw [find?_filter_keySelf]
    simp
  · rw [find?_filter_keyNe key t r k h]
    have : List.find? (fun a => key a == k) [r] = none := by simp [h]
    rw [this, Option.or_none, if_neg h]

lemma find?_foldl_upsert {α : Type} (key : α → Int) :
    ∀ (rs : List α) (t : List α) (k : Int),
      ((rs.foldl (fun acc r => upsertBy key acc r) t).find? (fun a => key a == k)) =
        ((rs.reverse.find? (fun a => key a == k)).or (t.find? (fun a => key a == k))) := by
  intro rs
  induction rs with
  | nil => intro t k; simp
  | cons r rs ih =>
    intro t k
    rw [List.foldl_cons, ih, List.reverse_cons, List.find?_append, Option.or_assoc]
    congr 1
    rw [find?_upsertBy]
    by_cases h : key r = k
    · simp [h]
    · simp [h]

lemma or_self_or {α : Type} (a b : Option α) : a.or (a.or b) = a.or b := by
  cases a <;> simp

lemma get_systems_by_id64s_eq (db : GalaxyDatabase)
    (hs : (db.systems.map (fun r => r.id64)).Nodup) (ids : List Int) :
    get_systems_by_id64s db ids = ids.map (get_system_by_id64 db) := by
  unfold get_systems_by_id64s
  by_cases hids : ids = []
  · simp [hids]
  · rw [if_neg hids]
    apply List.map_congr_left
    intro i hi
    have hidedup : i ∈ ids.dedup := List.mem_dedup.mpr hi
    cases hf : db.systems.find? (fun r => r.id64 == i) with
    | none =>
      have hnone : ∀ v ∈ (db.systems.filter
          (fun r => decide (r.id64 ∈ ids.dedup))).map toSystemData, v.id64 ≠ i := by
        intro v hv hvi
        obtain ⟨rv, hrv, hrveq⟩ := List.mem_map.mp hv
        have hrvmem : rv ∈ db.systems := List.mem_of_mem_filter hrv
        have : ¬((fun r => r.id64 == i) rv = true) :=
          List.find?_eq_none.mp hf rv hrvmem
        apply this
        have : rv.id64 = v.id64 := by rw [← hrveq]; rfl
        simp [this, hvi]
      rw [dictGet_dictOf_eq_none _ _ _ hnone]
      unfold get_system_by_id64
      rw [hf]
      rfl
    | some r =>
      have hrmem : r ∈ db.systems := List.mem_of_find?_eq_some hf
      have hrid : r.id64 = i := by simpa using List.find?_some hf
      have hvmem : toSystemData r ∈ (db.systems.filter
          (fun r => decide (r.id64 ∈ ids.dedup))).map toSystemData := by
        apply List.mem_map.mpr
        refine ⟨r, ?_, rfl⟩
        apply List.mem_filter.mpr
        exact ⟨hrmem, by simp [hrid, hidedup]⟩
      have hcoh : ∀ a ∈ (db.systems.filter
            (fun r => decide (r.id64 ∈ ids.dedup))).map toSystemData,
          ∀ b ∈ (db.systems.filter
            (fun r => decide (r.id64 ∈ ids.dedup))).map toSystemData,
          a.id64 = b.id64 → a = b := by
        intro a ha b hb hab
        obtain ⟨ra, hra, hraeq⟩ := List.mem_map.mp ha
        obtain ⟨rb, hrb, hrbeq⟩ := List.mem_map.mp hb
        have hraid : ra.id64 = a.id64 := by rw [← hraeq]; rfl
        have hrbid : rb.id64 = b.id64 := by rw [← hrbeq]; rfl
        have : ra = rb := List.inj_on_of_nodup_map hs
          (List.mem_of_mem_filter hra) (List.mem_of_mem_filter hrb)
          (by rw [hraid, hrbid, hab])
        rw [← hraeq, ← hrbeq, this]
      have := dictGet_dictOf_of_mem (fun s => s.id64)
        ((db.systems.filter (fun r => decide (r.id64 ∈ ids.dedup))).map toSystemData)
        (toSystemData r) hvmem hcoh
      simp only [toSystemData, hrid] at this
      rw [this]
      unfold get_system_by_id64
      rw [hf]
      simp [toSystemData, hrid]

lemma get_populations_by_id64s_eq (db : GalaxyDatabase)
    (hp : (db.pops.map (fun p => p.id64)).Nodup) (ids : List Int) :
    get_populations_by_id64s db ids = ids.map (get_population_by_id64 db) := by
  unfold get_populations_by_id64s
  by_cases hids : ids = []
  · simp [hids]
  · rw [if_neg hids]
    apply List.map_congr_left
    intro i hi
    have hidedup : i ∈ ids.dedup := List.mem_dedup.mpr hi
    cases hf : db.pops.find? (fun p => p.id64 == i) with
    | none =>
      have hnone : ∀ v ∈ db.pops.filter (fun p => decide (p.id64 ∈ ids.dedup)),
          v.id64 ≠ i := by
        intro v hv hvi
        have : ¬((fun p => p.id64 == i) v = true) :=
          List.find?_eq_none.mp hf v (List.mem_of_mem_filter hv)
        simp [hvi] at this
      rw [dictGet_dictOf_eq_none _ _ _ hnone]
      unfold get_population_by_id64
      rw [hf]
    | some r =>
      have hrmem : r ∈ db.pops := List.mem_of_find?_eq_some hf
      have hrid : r.id64 = i := by simpa using List.find?_some hf
      have hvmem : r ∈ db.pops.filter (fun p => decide (p.id64 ∈ ids.dedup)) :=
        List.mem_filter.mpr ⟨hrmem, by simp [hrid, hidedup]⟩
      have hcoh : ∀ a ∈ db.pops.filter (fun p => decide (p.id64 ∈ ids.dedup)),
          ∀ b ∈ db.pops.filter (fun p => decide (p.id64 ∈ ids.dedup)),
          a.id64 = b.id64 → a = b := by
        intro a ha b hb hab
        exact List.inj_on_of_nodup_map hp
          (List.mem_of_mem_filter ha) (List.mem_of_mem_filter hb) hab
      have := dictGet_dictOf_of_mem (fun p => p.id64)
        (db.pops.filter (fun p => decide (p.id64 ∈ ids.dedup))) r hvmem hcoh
      simp only [hrid] at this
      rw [this]
      unfold get_population_by_id64
      rw [hf]

/-- The rows a systems snapshot extracts, or the first extraction error:
`update_systems` in its success case folds these rows over the table. -/
def extractSystemRows : List RawSystem → Except String (List SystemRow)
  | [] => .ok []
  | obj :: rest =>
    match processSystemRecord obj with
    | .error e => .error e
    | .ok row => (extractSystemRows rest).map (fun rows => row :: rows)

lemma update_systems_cons (t : List SystemRow) (obj : RawSystem) (rest : List RawSystem) :
    update_systems t (obj :: rest) =
      (match processSystemRecord obj with
        | .error e => Except.error e
        | .ok row => update_systems (upsertBy (fun r => r.id64) t row) rest) := rfl

lemma update_population_cons (t : List PopulationData) (obj : RawPop) (rest : List RawPop) :
    update_population_data t (obj :: rest) =
      update_population_data
        (match processPopRecord obj with
          | none => t
          | some row => upsertBy (fun p => p.id64) t row) rest := rfl

lemma update_systems_eq_extract :
    ∀ (objs : List RawSystem) (t : List SystemRow),
      update_systems t objs = (extractSystemRows objs).map
        (fun rows => rows.foldl (fun acc r => upsertBy (fun x => x.id64) acc r) t) := by
  intro objs
  induction objs with
  | nil => intro t; rfl
  | cons obj rest ih =>
    intro t
    rw [update_systems_cons]
    cases hpr : processSystemRecord obj with
    | error e => simp [extractSystemRows, hpr, Except.map]
    | ok row =>
      simp only [extractSystemRows, hpr]
      rw [ih (upsertBy (fun r => r.id64) t row)]
      cases hrest : extractSystemRows rest with
      | error e => simp [Except.map]
      | ok rows => simp [Except.map]

lemma update_population_eq_fold :
    ∀ (objs : List RawPop) (t : List PopulationData),
      update_population_data t objs = (objs.filterMap processPopRecord).foldl
        (fun acc r => upsertBy (fun p => p.id64) acc r) t := by
  intro objs
  induction objs with
  | nil => intro t; rfl
  | cons obj rest ih =>
    intro t
    rw [update_population_cons]
    cases hpr : processPopRecord obj with
    | none =>
      simp only [hpr, List.filterMap_cons]
      exact ih t
    | some row =>
      simp only [hpr, List.filterMap_cons, List.foldl_cons]
      exact ih (upsertBy (fun p => p.id64) t row)

lemma update_population_skip (t : List PopulationData) (pre post : List RawPop)
    (obj : RawPop) (h : processPopRecord obj = none) :
    update_population_data t (pre ++ obj :: post) =
      update_population_data t (pre ++ post) := by
  rw [update_population_eq_fold, update_population_eq_fold]
  congr 1
  simp [List.filterMap_append, List.filterMap_cons, h]

lemma processSystemRecord_grid (obj : RawSystem) (row : SystemRow)
    (h : processSystemRecord obj = .ok row) :
    (row.grid_x, row.grid_y, row.grid_z) = gkey row.x row.y row.z := by
  obtain ⟨oid, oname, omain, ocoords⟩ := obj
  cases oname with
  | none => exact absurd h (by simp [processSystemRecord])
  | some nm =>
    cases ocoords with
    | none => exact absurd h (by simp [processSystemRecord])
    | some c =>
      obtain ⟨cx, cy, cz⟩ := c
      cases cx with
      | none => exact absurd h (by simp [processSystemRecord])
      | some x =>
        cases cy with
        | none => exact absurd h (by simp [processSystemRecord])
        | some y =>
          cases cz with
          | none => exact absurd h (by simp [processSystemRecord])
          | some z =>
            cases oid with
            | none => exact absurd h (by simp [processSystemRecord])
            | some id64 =>
              have hrow : row = ⟨id64, (gkey x y z).1, (gkey x y z).2.1,
                  (gkey x y z).2.2, x, y, z, nm, omain.getD "N/A"⟩ := by
                have := h.symm
                simpa [processSystemRecord] using this
              subst hrow
              rfl

/-- C8: the bucket function is the pure map
`(x, y, z) to (floor(x/25), floor(y/25), floor(z/25))`, and every systems
ingestion preserves the invariant that each stored row's grid columns are
exactly `gkey` of its stored coordinates, so buckets never drift and
re-ingesting unchanged coordinates reproduces the identical bucket. -/
theorem grid_bucket_invariant :
    (∀ x y z : ℚ, gkey x y z = (⌊x / 25⌋, ⌊y / 25⌋, ⌊z / 25⌋)) ∧
    (∀ (objs : List RawSystem) (t t' : List SystemRow),
      (∀ r ∈ t, (r.grid_x, r.grid_y, r.grid_z) = gkey r.x r.y r.z) →
      update_systems t objs = .ok t' →
      ∀ r ∈ t', (r.grid_x, r.grid_y, r.grid_z) = gkey r.x r.y r.z) := by
  constructor
  · intro x y z; rfl
  · intro objs
    induction objs with
    | nil =>
      intro t t' hinv h
      cases h
      exact hinv
    | cons obj rest ih =>
      intro t t' hinv h
      rw [update_systems_cons] at h
      cases hpr : processSystemRecord obj with
      | error e => rw [hpr] at h; cases h
      | ok row =>
        rw [hpr] at h
        refine ih (upsertBy (fun r => r.id64) t row) t' ?_ h
        intro r hr
        rcases List.mem_append.mp hr with hr | hr
        · exact hinv r (List.mem_of_mem_filter hr)
        · have hre : r = row := by simpa using hr
          subst hre
          exact processSystemRecord_grid obj r hpr

/-- C9: upsert idempotence — running the same systems or population snapshot
twice leaves, for every id64, the same stored row as running it once, and a
single upsert fully overwrites the row for its id64 (exactly one row with
that key remains, the new one). -/
theorem upsert_idempotent :
    (∀ (t : List SystemRow) (objs : List RawSystem) (t1 : List SystemRow),
      update_systems t objs = .ok t1 →
      ∃ t2, update_systems t1 objs = .ok t2 ∧
        ∀ k : Int, t2.find? (fun r => r.id64 == k) = t1.find? (fun r => r.id64 == k)) ∧
    (∀ (t : List PopulationData) (objs : List RawPop) (k : Int),
      (update_population_data (update_population_data t objs) objs).find?
          (fun p => p.id64 == k) =
        (update_population_data t objs).find? (fun p => p.id64 == k)) ∧
    (∀ (t : List SystemRow) (r : SystemRow),
      (upsertBy (fun x => x.id64) t r).filter (fun s => s.id64 == r.id64) = [r]) ∧
    (∀ (t : List PopulationData) (r : PopulationData),
      (upsertBy (fun x => x.id64) t r).filter (fun s => s.id64 == r.id64) = [r]) := by
  refine ⟨?_, ?_, ?_, ?_⟩
  · intro t objs t1 h
    rw [update_systems_eq_extract] at h
    cases hex : extractSystemRows objs with
    | error e => rw [hex] at h; cases h
    | ok rows =>
      rw [hex] at h
      have ht1 : rows.foldl (fun acc r => upsertBy (fun x => x.id64) acc r) t = t1 := by
        cases h; rfl
      refine ⟨rows.foldl (fun acc r => upsertBy (fun x => x.id64) acc r) t1, ?_, ?_⟩
      · rw [update_systems_eq_extract, hex]; rfl
      · intro k
        rw [← ht1]
        simp only [find?_foldl_upsert, or_self_or]
  · intro t objs k
    simp only [update_population_eq_fold, find?_foldl_upsert, or_self_or]
  · intro t r
    unfold upsertBy
    rw [List.filter_append, List.filter_filter]
    have h1 : (t.filter fun a => (a.id64 == r.id64) && (a.id64 != r.id64)) = [] := by
      rw [List.filter_eq_nil_iff]
      intro a _
      by_cases h : a.id64 = r.id64 <;> simp [h]
    rw [h1]
    simp
  · intro t r
    unfold upsertBy
    rw [List.filter_append, List.filter_filter]
    have h1 : (t.filter fun a => (a.id64 == r.id64) && (a.id64 != r.id64)) = [] := by
      rw [List.filter_eq_nil_iff]
      intro a _
      by_cases h : a.id64 = r.id64 <;> simp [h]
    rw [h1]
    simp

/-- C5: batch lookups return one element per input position (duplicates and
arbitrary order allowed), the element at each position being exactly the
point lookup of the identifier at that position (`none` when no row exists),
so equal input identifiers yield identical results; the deduplicated id set
the single query runs over contains each identifier once. -/
theorem batch_lookup_alignment (db : GalaxyDatabase)
    (hs : (db.systems.map (fun r => r.id64)).Nodup)
    (hp : (db.pops.map (fun p => p.id64)).Nodup) (ids : List Int) :
    (get_systems_by_id64s db ids).length = ids.length ∧
    (get_populations_by_id64s db ids).length = ids.length ∧
    (∀ j : ℕ, (get_systems_by_id64s db ids)[j]? =
      (ids[j]?).map (get_system_by_id64 db)) ∧
    (∀ j : ℕ, (get_populations_by_id64s db ids)[j]? =
      (ids[j]?).map (get_population_by_id64 db)) ∧
    (∀ j k : ℕ, ids[j]? = ids[k]? →
      (get_systems_by_id64s db ids)[j]? = (get_systems_by_id64s db ids)[k]? ∧
      (get_populations_by_id64s db ids)[j]? = (get_populations_by_id64s db ids)[k]?) ∧
    (∀ i : Int, get_system_by_id64 db i = none ↔ ∀ r ∈ db.systems, r.id64 ≠ i) ∧
    (∀ i : Int, get_population_by_id64 db i = none ↔ ∀ p ∈ db.pops, p.id64 ≠ i) ∧
    ids.dedup.Nodup := by
  have hsys := get_systems_by_id64s_eq db hs ids
  have hpop := get_populations_by_id64s_eq db hp ids
  refine ⟨?_, ?_, ?_, ?_, ?_, ?_, ?_, ?_⟩
  · rw [hsys, List.length_map]
  · rw [hpop, List.length_map]
  · intro j; rw [hsys, List.getElem?_map]
  · intro j; rw [hpop, List.getElem?_map]
  · intro j k h
    constructor
    · rw [hsys, List.getElem?_map, List.getElem?_map, h]
    · rw [hpop, List.getElem?_map, List.getElem?_map, h]
  · intro i
    simp [get_system_by_id64, List.find?_eq_none]
  · intro i
    simp [get_population_by_id64, List.find?_eq_none]
  · exact List.nodup_dedup ids

def exRowA : SystemRow := ⟨1, 0, 0, 0, 0, 0, 0, "Alpha", "K"⟩

def exRowB : SystemRow := ⟨2, 0, 0, 0, 10, 10, 10, "Beta", "M"⟩

def exPopA : PopulationData := ⟨1, some 1000, "Low", "", "Agri", ""⟩

def exDb : GalaxyDatabase := ⟨[exRowA, exRowB], [exPopA]⟩

theorem batch_lookup_alignment_witness :
    ((exDb.systems.map (fun r => r.id64)).Nodup ∧
      (exDb.pops.map (fun p => p.id64)).Nodup) ∧
    (get_systems_by_id64s exDb [1, 2, 1, 3])[2]? =
      some (get_system_by_id64 exDb 1) := by
  have h := batch_lookup_alignment exDb (by decide) (by decide) [1, 2, 1, 3]
  refine ⟨⟨by decide, by decide⟩, ?_⟩
  have h3 := h.2.2.1 2
  simpa using h3

/-- C6: population-ingestion skip rule — a record whose population is absent
or zero or whose primary economy is absent is skipped entirely (no upsert,
no error, remaining records still processed), while an otherwise-valid
record whose controlling-faction object is missing, malformed (not a dict),
or lacking a name is still stored with the empty controlling faction. -/
theorem population_skip_rule :
    (∀ obj : RawPop,
      obj.population = none ∨ obj.population = some 0 ∨ obj.primaryEconomy = none →
      processPopRecord obj = none) ∧
    (∀ (t : List PopulationData) (pre post : List RawPop) (obj : RawPop),
      processPopRecord obj = none →
      update_population_data t (pre ++ obj :: post) =
        update_population_data t (pre ++ post)) ∧
    (∀ (t : List PopulationData) (obj : RawPop) (i p : Int),
      obj.id64 = some i → obj.population = some p → p ≠ 0 →
      obj.primaryEconomy.getD "" ≠ "" →
      (obj.controllingFaction = CFacField.absent ∨
        obj.controllingFaction = CFacField.notDict ∨
        obj.controllingFaction = CFacField.objF none) →
      ∃ row, processPopRecord obj = some row ∧ row.controllingFaction = "" ∧
        update_population_data t [obj] = upsertBy (fun q => q.id64) t row) := by
  refine ⟨?_, ?_, ?_⟩
  · intro obj h
    cases hid : obj.id64 with
    | none => simp [processPopRecord, hid]
    | some i =>
      have hcond : obj.population = none ∨ obj.population = some 0 ∨
          obj.primaryEconomy.getD "" = "" := by
        rcases h with h | h | h
        · exact Or.inl h
        · exact Or.inr (Or.inl h)
        · exact Or.inr (Or.inr (by rw [h]; rfl))
      simp only [processPopRecord, hid]
      rw [if_pos hcond]
  · intro t pre post obj h
    exact update_population_skip t pre post obj h
  · intro t obj i p hid hpop hp0 hprim hcf
    have hfalse : ¬(obj.population = none ∨ obj.population = some 0 ∨
        obj.primaryEconomy.getD "" = "") := by
      intro hor
      rcases hor with h | h | h
      · rw [hpop] at h; cases h
      · rw [hpop] at h
        simp only [Option.some.injEq] at h
        exact hp0 h
      · exact hprim h
    have hproc : processPopRecord obj = some ⟨i, obj.population, obj.security.getD "",
        "", obj.primaryEconomy.getD "", obj.secondaryEconomy.getD ""⟩ := by
      simp only [processPopRecord, hid]
      rw [if_neg hfalse]
      rcases hcf with hcf | hcf | hcf <;> simp [hcf]
    refine ⟨_, hproc, rfl, ?_⟩
    rw [update_population_cons, hproc]
    rfl

def exSkipPop : RawPop := ⟨some 7, none, none, some "Agri", none, CFacField.absent⟩

def exCFPop : RawPop := ⟨some 7, some 5, none, some "Agri", none, CFacField.absent⟩

theorem population_skip_rule_witness :
    (exSkipPop.population = none ∨ exSkipPop.population = some 0 ∨
      exSkipPop.primaryEconomy = none) ∧
    processPopRecord exSkipPop = none ∧
    (∃ row, processPopRecord exCFPop = some row ∧ row.controllingFaction = "" ∧
      update_population_data [] [exCFPop] = upsertBy (fun q => q.id64) [] row) := by
  refine ⟨Or.inl rfl, population_skip_rule.1 exSkipPop (Or.inl rfl),
    population_skip_rule.2.2 [] exCFPop 7 5 rfl rfl (by decide) (by decide) (Or.inl rfl)⟩

/-- C7 (amended): during population ingestion a record that fails
required-field extraction (missing id64) is logged and skipped and ingestion
continues; during systems ingestion, however, a record missing a required
field (here the name, extracted first) raises and aborts the whole
ingestion, because that loop has no per-record exception handler. -/
theorem ingest_malformed_record :
    (∀ (t : List PopulationData) (pre post : List RawPop) (obj : RawPop),
      obj.id64 = none →
      update_population_data t (pre ++ obj :: post) =
        update_population_data t (pre ++ post)) ∧
    (∀ (t : List SystemRow) (obj : RawSystem) (rest : List RawSystem),
      obj.name = none → update_systems t (obj :: rest) = .error "name") := by
  constructor
  · intro t pre post obj h
    apply update_population_skip
    simp [processPopRecord, h]
  · intro t obj rest h
    rw [update_systems_cons]
    have hpr : processSystemRecord obj = .error "name" := by
      simp [processSystemRecord, h]
    rw [hpr]

def exNoIdPop : RawPop := ⟨none, some 5, none, some "Agri", none, CFacField.absent⟩

def goodSys1 : RawSystem := ⟨some 1, some "Alpha", some "K", some ⟨some 0, some 0, some 0⟩⟩

def badSys : RawSystem := ⟨some 2, none, none, some ⟨some 1, some 1, some 1⟩⟩

def goodSys2 : RawSystem := ⟨some 3, some "Gamma", none, some ⟨some 2, some 2, some 2⟩⟩

/-- C7 counterexample: a systems snapshot whose second record lacks the
required `name` field makes the whole systems ingestion abort with the
`KeyError`-style failure instead of skipping the record and continuing,
even though the same prefix alone ingests fine. -/
theorem ingest_malformed_record_counterexample :
    update_systems [] [goodSys1, badSys, goodSys2] = Except.error "name" ∧
    update_systems [] [goodSys1] =
      Except.ok [⟨1, 0, 0, 0, 0, 0, 0, "Alpha", "K"⟩] := by
  constructor
  · rfl
  · simp only [update_systems, processSystemRecord, goodSys1, upsertBy,
      List.filter_nil, List.nil_append]
    norm_num [gkey, GRID]

theorem ingest_malformed_record_witness :
    exNoIdPop.id64 = none ∧ badSys.name = none ∧
    update_population_data [] [exNoIdPop] = [] ∧
    update_systems [] [badSys] = Except.error "name" := by
  have h1 := ingest_malformed_record.1 [] [] [] exNoIdPop rfl
  have h2 := ingest_malformed_record.2 [] badSys [] rfl
  exact ⟨rfl, rfl, by simpa using h1, h2⟩

lemma update_goodSys1 :
    update_systems [] [goodSys1] =
      Except.ok [⟨1, 0, 0, 0, 0, 0, 0, "Alpha", "K"⟩] := by
  simp only [update_systems, processSystemRecord, goodSys1, upsertBy,
    List.filter_nil, List.nil_append]
  norm_num [gkey, GRID]

theorem grid_bucket_invariant_witness :
    (∀ r ∈ ([] : List SystemRow), (r.grid_x, r.grid_y, r.grid_z) = gkey r.x r.y r.z) ∧
    ∀ r ∈ [(⟨1, 0, 0, 0, 0, 0, 0, "Alpha", "K"⟩ : SystemRow)],
      (r.grid_x, r.grid_y, r.grid_z) = gkey r.x r.y r.z :=
  ⟨by simp,
    grid_bucket_invariant.2 [goodSys1] [] _ (by simp) update_goodSys1⟩

theorem upsert_idempotent_witness :
    update_systems [] [goodSys1] =
      Except.ok [⟨1, 0, 0, 0, 0, 0, 0, "Alpha", "K"⟩] ∧
    ∃ t2, update_systems [(⟨1, 0, 0, 0, 0, 0, 0, "Alpha", "K"⟩ : SystemRow)] [goodSys1] =
        Except.ok t2 ∧
      ∀ k : Int, t2.find? (fun r => r.id64 == k) =
        ([(⟨1, 0, 0, 0, 0, 0, 0, "Alpha", "K"⟩ : SystemRow)]).find? (fun r => r.id64 == k) :=
  ⟨update_goodSys1, upsert_idempotent.1 [] [goodSys1] _ update_goodSys1⟩

/-- C10: the "any faction" sentinel is the exact case-sensitive literal
"ANY"; the faction predicate used by the reference-scoped colony search under
"ANY" accepts exactly non-empty controlling factions; and the faction-scoped
lookup called with "ANY" returns exactly the stored systems whose population
record has a non-empty controlling faction — so a faction actually named
"ANY" is never selected by exact name (the exact-match branch is shadowed). -/
theorem any_sentinel_shadowing :
    (is_any_faction "ANY" = true ∧ is_any_faction "any" = false ∧
      is_any_faction "Any" = false ∧ is_any_faction "" = false) ∧
    (∀ cf : String,
      (cf == "ANY" || (is_any_faction "ANY" && cf != "")) = (cf != "")) ∧
    (∀ (db : GalaxyDatabase) (s : SystemData) (p : PopulationData),
      (s, p) ∈ query_systems_by_faction db "ANY" ↔
        p ∈ db.pops ∧ p.controllingFaction ≠ "" ∧
        ∃ row ∈ db.systems, row.id64 = p.id64 ∧ toSystemData row = s) := by
  refine ⟨⟨by decide, by decide, by decide, by decide⟩, ?_, ?_⟩
  · intro cf
    by_cases hc : cf = "ANY" <;> simp [hc, is_any_faction]
  · intro db s p
    simp only [query_systems_by_faction, is_any_faction]
    rw [List.mem_flatMap]
    constructor
    · rintro ⟨q, hq, hmem⟩
      by_cases hcf : (q.controllingFaction != "") = true
      · simp only [beq_self_eq_true, if_true, hcf] at hmem
        obtain ⟨r, hr, hreq⟩ := List.mem_map.mp hmem
        have hs : toSystemData r = s := congrArg Prod.fst hreq
        have hpq : q = p := congrArg Prod.snd hreq
        subst hpq
        refine ⟨hq, by simpa using hcf, r, List.mem_of_mem_filter hr, ?_, hs⟩
        have := List.mem_filter.mp hr
        simpa using this.2
      · simp only [beq_self_eq_true, if_true] at hmem
        rw [if_neg hcf] at hmem
        simp at hmem
    · rintro ⟨hp, hcf, r, hr, hrid, hrs⟩
      refine ⟨p, hp, ?_⟩
      simp only [beq_self_eq_true, if_true]
      rw [if_pos (by simpa using hcf)]
      apply List.mem_map.mpr
      exact ⟨r, List.mem_filter.mpr ⟨hr, by simp [hrid]⟩, by rw [hrs]⟩

lemma sq_dist_le_iff_sqrt (dq r : ℚ) (hr : 0 ≤ r) :
    dq ≤ r * r ↔ Real.sqrt (dq : ℝ) ≤ (r : ℝ) := by
  rw [Real.sqrt_le_left (by exact_mod_cast hr)]
  have h2 : ((r : ℝ)) ^ 2 = ((r * r : ℚ) : ℝ) := by push_cast; ring
  rw [h2, Rat.cast_le]

lemma floor_div_GRID_range (c r a : ℚ) (hr : 0 ≤ r)
    (h : (a - c) * (a - c) ≤ r * r) :
    ⌊(c - r) / GRID⌋ ≤ ⌊a / GRID⌋ ∧ ⌊a / GRID⌋ ≤ ⌊(c + r) / GRID⌋ := by
  have hG : (0 : ℚ) < GRID := by norm_num [GRID]
  have h1 : c - r ≤ a := by nlinarith
  have h2 : a ≤ c + r := by nlinarith
  constructor <;> apply Int.floor_le_floor
  · exact div_le_div_of_nonneg_right h1 hG.le
  · exact div_le_div_of_nonneg_right h2 hG.le

/-- C1: radius-query soundness and completeness.  Whenever every stored
row's grid columns agree with `gkey` of its coordinates (the invariant
ingestion maintains) and the radius is nonnegative, `query_systems_by_radius`
returns exactly the stored systems whose true Euclidean distance to the
center is at most the radius — boundary and bucket-edge cases included — each
entry carrying its population record and the exact (squared) distance, whose
square root is the distance the source reports. -/
theorem radius_query_correct (db : GalaxyDatabase) (cx cy cz r : ℚ)
    (hr : 0 ≤ r)
    (hg : ∀ row ∈ db.systems,
      (row.grid_x, row.grid_y, row.grid_z) = gkey row.x row.y row.z) :
    ∀ (s : SystemData) (p : Option PopulationData) (d : ℚ),
      (s, p, d) ∈ query_systems_by_radius db cx cy cz r ↔
        ((∃ row ∈ db.systems, toSystemData row = s) ∧
          Real.sqrt (((s.x - cx) * (s.x - cx) + (s.y - cy) * (s.y - cy) +
            (s.z - cz) * (s.z - cz) : ℚ) : ℝ) ≤ (r : ℝ) ∧
          d = (s.x - cx) * (s.x - cx) + (s.y - cy) * (s.y - cy) +
            (s.z - cz) * (s.z - cz) ∧
          p = get_population_by_id64 db s.id64) := by
  intro s p d
  simp only [query_systems_by_radius]
  rw [List.mem_filterMap]
  constructor
  · rintro ⟨a, ha, hfa⟩
    by_cases hcond : (a.x - cx) * (a.x - cx) + (a.y - cy) * (a.y - cy) +
        (a.z - cz) * (a.z - cz) ≤ r * r
    · rw [if_pos hcond] at hfa
      have h := Option.some.inj hfa
      have h1 : a = s := congrArg Prod.fst h
      have h2 : get_population_by_id64 db a.id64 = p :=
        congrArg (fun t => t.2.1) h
      have h3 : (a.x - cx) * (a.x - cx) + (a.y - cy) * (a.y - cy) +
          (a.z - cz) * (a.z - cz) = d := congrArg (fun t => t.2.2) h
      subst h1
      obtain ⟨row, hrowf, hrowa⟩ := List.mem_map.mp ha
      refine ⟨⟨row, List.mem_of_mem_filter hrowf, hrowa⟩,
        (sq_dist_le_iff_sqrt _ r hr).mp hcond, h3.symm, h2.symm⟩
    · rw [if_neg hcond] at hfa
      cases hfa
  · rintro ⟨⟨row, hrow, hrows⟩, hsqrt, hd, hp⟩
    have hcond : (s.x - cx) * (s.x - cx) + (s.y - cy) * (s.y - cy) +
        (s.z - cz) * (s.z - cz) ≤ r * r :=
      (sq_dist_le_iff_sqrt _ r hr).mpr hsqrt
    have hsx : s.x = row.x := by rw [← hrows]; rfl
    have hsy : s.y = row.y := by rw [← hrows]; rfl
    have hsz : s.z = row.z := by rw [← hrows]; rfl
    refine ⟨s, ?_, ?_⟩
    · have hgr := hg row hrow
      have hgx : row.grid_x = ⌊row.x / GRID⌋ := congrArg Prod.fst hgr
      have hgy : row.grid_y = ⌊row.y / GRID⌋ :=
        congrArg (fun t => t.2.1) hgr
      have hgz : row.grid_z = ⌊row.z / GRID⌋ :=
        congrArg (fun t => t.2.2) hgr
      have hcx : (row.x - cx) * (row.x - cx) ≤ r * r := by
        rw [← hsx]; nlinarith [mul_self_nonneg (s.y - cy), mul_self_nonneg (s.z - cz)]
      have hcy : (row.y - cy) * (row.y - cy) ≤ r * r := by
        rw [← hsy]; nlinarith [mul_self_nonneg (s.x - cx), mul_self_nonneg (s.z - cz)]
      have hcz : (row.z - cz) * (row.z - cz) ≤ r * r := by
        rw [← hsz]; nlinarith [mul_self_nonneg (s.x - cx), mul_self_nonneg (s.y - cy)]
      have hfx := floor_div_GRID_range cx r row.x hr hcx
      have hfy := floor_div_GRID_range cy r row.y hr hcy
      have hfz := floor_div_GRID_range cz r row.z hr hcz
      unfold query_grid_cell_range
      apply List.mem_map.mpr
      refine ⟨row, ?_, hrows⟩
      apply List.mem_filter.mpr
      refine ⟨hrow, ?_⟩
      rw [decide_eq_true_eq]
      rw [hgx, hgy, hgz]
      exact ⟨hfx.1, hfx.2, hfy.1, hfy.2, hfz.1, hfz.2⟩
    · rw [if_pos hcond, ← hd, ← hp]

def sA : SystemData := ⟨1, 0, 0, 0, "Alpha", "K"⟩

lemma exDb_grid_inv : ∀ row ∈ exDb.systems,
    (row.grid_x, row.grid_y, row.grid_z) = gkey row.x row.y row.z := by
  intro row hrow
  have h : row = exRowA ∨ row = exRowB := by
    simpa [exDb] using hrow
  rcases h with h | h <;> subst h <;> norm_num [exRowA, exRowB, gkey, GRID]

theorem radius_query_correct_witness :
    (0 : ℚ) ≤ 20 ∧
    (∀ row ∈ exDb.systems,
      (row.grid_x, row.grid_y, row.grid_z) = gkey row.x row.y row.z) ∧
    (sA, some exPopA, 0) ∈ query_systems_by_radius exDb 0 0 0 20 := by
  refine ⟨by norm_num, exDb_grid_inv, ?_⟩
  apply (radius_query_correct exDb 0 0 0 20 (by norm_num) exDb_grid_inv
    sA (some exPopA) 0).mpr
  refine ⟨⟨exRowA, by simp [exDb], rfl⟩, ?_, by norm_num [sA], rfl⟩
  have hz : ((sA.x - 0) * (sA.x - 0) + (sA.y - 0) * (sA.y - 0) +
      (sA.z - 0) * (sA.z - 0) : ℚ) = 0 := by norm_num [sA]
  rw [hz]
  simp [Real.sqrt_zero]

/-- The tracker of the claim: `batchSize = 3` with the constructor's default
time parameters (`time_interval 5`, initial check batch 100, bounds 10/10000,
smoothing 0.3), constructed at time `t0`. -/
def tracker3 (t0 : ℚ) : AdaptiveUpdateTracker :=
  mkTracker 3 5 100 10 10000 (3/10) t0

/-- Reachable-state invariant of `tracker3`: the batch size is 3, the
time-check batch never drops below the minimum 10, and the since-last-
time-check counter always equals `total_count % 3` (it is reset by every
batch commit), hence never reaches the time-check batch. -/
def TrackerInv (tr : AdaptiveUpdateTracker) : Prop :=
  tr.batch_size = 3 ∧ tr.min_time_check_batch = 10 ∧
  10 ≤ tr.time_check_batch ∧ 0 ≤ tr.total_count ∧
  tr.records_since_time_check = tr.total_count % 3

lemma pyRound_ge (q : ℚ) (n : Int) (h : (n : ℚ) ≤ q) : n ≤ pyRound q := by
  have hf : n ≤ ⌊q⌋ := Int.le_floor.mpr h
  simp only [pyRound]
  split_ifs <;> omega

lemma resetTimer_batch_size (tr : AdaptiveUpdateTracker) (now : ℚ) :
    (resetTimer tr now).batch_size = tr.batch_size := by
  by_cases h : tr.last_commit_time < now ∧ tr.last_commit_total < tr.total_count <;>
    simp [resetTimer, sub_pos, h]

lemma resetTimer_min_tcb (tr : AdaptiveUpdateTracker) (now : ℚ) :
    (resetTimer tr now).min_time_check_batch = tr.min_time_check_batch := by
  by_cases h : tr.last_commit_time < now ∧ tr.last_commit_total < tr.total_count <;>
    simp [resetTimer, sub_pos, h]

lemma resetTimer_total (tr : AdaptiveUpdateTracker) (now : ℚ) :
    (resetTimer tr now).total_count = tr.total_count := by
  by_cases h : tr.last_commit_time < now ∧ tr.last_commit_total < tr.total_count <;>
    simp [resetTimer, sub_pos, h]

lemma resetTimer_rstc (tr : AdaptiveUpdateTracker) (now : ℚ) :
    (resetTimer tr now).records_since_time_check = 0 := by
  by_cases h : tr.last_commit_time < now ∧ tr.last_commit_total < tr.total_count <;>
    simp [resetTimer, sub_pos, h]

lemma resetTimer_tcb_ge (tr : AdaptiveUpdateTracker) (now : ℚ)
    (h : tr.min_time_check_batch ≤ tr.time_check_batch) :
    tr.min_time_check_batch ≤ (resetTimer tr now).time_check_batch := by
  by_cases hc : tr.last_commit_time < now ∧ tr.last_commit_total < tr.total_count
  · have hred : (resetTimer tr now).time_check_batch =
        pyRound (max (tr.min_time_check_batch : ℚ)
          (min (tr.max_time_check_batch : ℚ)
            ((match tr.ema_rate with
              | none => ((tr.total_count : ℚ) - tr.last_commit_total) /
                  (now - tr.last_commit_time)
              | some e => tr.rate_smoothing *
                  (((tr.total_count : ℚ) - tr.last_commit_total) /
                    (now - tr.last_commit_time)) +
                  (1 - tr.rate_smoothing) * e) * tr.time_interval))) := by
      simp [resetTimer, sub_pos, hc]
    rw [hred]
    apply pyRound_ge
    exact le_max_left _ _
  · simp [resetTimer, sub_pos, hc, h]

/-- The counter increments `should_commit` performs before any branch. -/
def bumpCounts (tr : AdaptiveUpdateTracker) : AdaptiveUpdateTracker :=
  { tr with
    total_count := tr.total_count + 1
    records_since_time_check := tr.records_since_time_check + 1 }

lemma should_commit_inv (tr : AdaptiveUpdateTracker) (now : ℚ) (h : TrackerInv tr) :
    (should_commit tr now).1 = decide ((tr.total_count + 1) % 3 = 0) ∧
    timePathFires tr now = false ∧
    TrackerInv (should_commit tr now).2 ∧
    (should_commit tr now).2.total_count = tr.total_count + 1 := by
  obtain ⟨hb3, hmin, htcb, htot, hrstc⟩ := h
  have hm0 : 0 ≤ tr.total_count % 3 := Int.emod_nonneg _ (by norm_num)
  have hm3 : tr.total_count % 3 < 3 := Int.emod_lt_of_pos _ (by norm_num)
  have hbmin : (bumpCounts tr).min_time_check_batch = 10 := by
    simp [bumpCounts, hmin]
  have hbbatch : (bumpCounts tr).batch_size = 3 := by simp [bumpCounts, hb3]
  have hbtotal : (bumpCounts tr).total_count = tr.total_count + 1 := by
    simp [bumpCounts]
  by_cases hb : (tr.total_count + 1) % 3 = 0
  · have hcommit : should_commit tr now = (true, resetTimer (bumpCounts tr) now) := by
      simp [should_commit, bumpCounts, hb3, hb]
    refine ⟨by rw [hcommit]; simp [hb], ?_, ?_, ?_⟩
    · simp [timePathFires, hb3, hb]
    · rw [hcommit]
      show TrackerInv (resetTimer (bumpCounts tr) now)
      have h1 := resetTimer_batch_size (bumpCounts tr) now
      have h2 := resetTimer_min_tcb (bumpCounts tr) now
      have h4 := resetTimer_total (bumpCounts tr) now
      have h5 := resetTimer_rstc (bumpCounts tr) now
      have h3 := resetTimer_tcb_ge (bumpCounts tr) now
        (by rw [hbmin]; simpa [bumpCounts] using htcb)
      refine ⟨?_, ?_, ?_, ?_, ?_⟩
      · rw [h1, hbbatch]
      · rw [h2, hbmin]
      · rw [hbmin] at h3; exact h3
      · rw [h4, hbtotal]; omega
      · rw [h5, h4, hbtotal, hb]
    · rw [hcommit]
      show (resetTimer (bumpCounts tr) now).total_count = tr.total_count + 1
      rw [resetTimer_total, hbtotal]
  · have hrlt : tr.records_since_time_check + 1 < tr.time_check_batch := by omega
    have hnle : ¬(tr.time_check_batch ≤ tr.records_since_time_check + 1) :=
      not_le.mpr hrlt
    have hcommit : should_commit tr now = (false, bumpCounts tr) := by
      simp [should_commit, bumpCounts, hb3, hb, hnle]
    refine ⟨by rw [hcommit]; simp [hb], ?_, ?_, by rw [hcommit]; exact hbtotal⟩
    · simp [timePathFires, hb3, hb, hnle]
    · rw [hcommit]
      show TrackerInv (bumpCounts tr)
      refine ⟨hbbatch, hbmin, by simpa [bumpCounts] using htcb, by rw [hbtotal]; omega, ?_⟩
      have hbr : (bumpCounts tr).records_since_time_check =
          tr.records_since_time_check + 1 := by simp [bumpCounts]
      rw [hbr, hbtotal]
      omega

lemma tracker3_inv (t0 : ℚ) : TrackerInv (tracker3 t0) :=
  ⟨rfl, rfl, by norm_num [tracker3, mkTracker], le_refl 0, rfl⟩

lemma runTracker_cons (tr : AdaptiveUpdateTracker) (t : ℚ) (ts : List ℚ) :
    runTracker tr (t :: ts) =
      ((should_commit tr t).1, timePathFires tr t) ::
        runTracker (should_commit tr t).2 ts := rfl

lemma runTracker_spec :
    ∀ (ts : List ℚ) (tr : AdaptiveUpdateTracker), TrackerInv tr →
      ∀ i : ℕ, i < ts.length →
        (runTracker tr ts)[i]? =
          some (decide ((tr.total_count + (i : Int) + 1) % 3 = 0), false) := by
  intro ts
  induction ts with
  | nil => intro tr _ i hi; simp at hi
  | cons t ts ih =>
    intro tr htr i hi
    obtain ⟨hc1, hc2, hc3, hc4⟩ := should_commit_inv tr t htr
    cases i with
    | zero =>
      rw [runTracker_cons, List.getElem?_cons_zero, hc1, hc2]
      have : decide ((tr.total_count + 1) % 3 = 0) =
          decide ((tr.total_count + ((0 : ℕ) : Int) + 1) % 3 = 0) :=
        decide_eq_decide.mpr (by omega)
      rw [this]
    | succ n =>
      have hih := ih (should_commit tr t).2 hc3 n (by simpa using hi)
      rw [hc4] at hih
      rw [runTracker_cons, List.getElem?_cons_succ, hih]
      have : decide ((tr.total_count + 1 + (n : Int) + 1) % 3 = 0) =
          decide ((tr.total_count + ((n + 1 : ℕ) : Int) + 1) % 3 = 0) :=
        decide_eq_decide.mpr (by push_cast; omega)
      rw [this]

/-- C2 (amended): for a tracker constructed with batchSize = 3 and the
default time-check parameters, `should_commit` returns true on exactly the
3rd, 6th, 9th, ... calls and false otherwise, and the time-based fallback
path never fires on any call of any timestamp stream — every batch commit
resets the since-last-time-check counter (which always equals
`total_count % 3 <= 2`) before it can reach the minimum time-check batch of
10, so the claimed eventual time-based commit can never happen for this
configuration. -/
theorem adaptive_tracker_commit (t0 : ℚ) (ts : List ℚ) :
    ∀ i : ℕ, i < ts.length →
      (runTracker (tracker3 t0) ts)[i]? =
        some (decide (((i : Int) + 1) % 3 = 0), false) := by
  intro i hi
  have h := runTracker_spec ts (tracker3 t0) (tracker3_inv t0) i hi
  rw [h, show (tracker3 t0).total_count = 0 from rfl]
  have : decide ((0 + (i : Int) + 1) % 3 = 0) =
      decide (((i : Int) + 1) % 3 = 0) :=
    decide_eq_decide.mpr (by omega)
  rw [this]

/-- One call every 5 seconds starting at time 5: fewer than three records
arrive within any 5-second window. -/
def slowTimes : ℕ → ℚ := fun n => 5 * ((n : ℚ) + 1)

/-- C2 counterexample: on the concrete slow stream `slowTimes` (inter-arrival
exactly `timeInterval = 5`), the batchSize-3 tracker never commits through
the time-based path on any call, refuting the claim's guarantee that a
commit eventually happens via that path. -/
theorem adaptive_tracker_commit_counterexample :
    interArrivalSlow slowTimes ∧
    ¬ eventuallyTimeCommit (tracker3 0) slowTimes := by
  constructor
  · intro n
    simp only [slowTimes]
    push_cast
    linarith
  · rintro ⟨n, hn⟩
    have hinv : ∀ m : ℕ, TrackerInv (trackerStateAt (tracker3 0) slowTimes m) := by
      intro m
      induction m with
      | zero => exact tracker3_inv 0
      | succ k ihk => exact (should_commit_inv _ _ ihk).2.2.1
    have hfl := (should_commit_inv (trackerStateAt (tracker3 0) slowTimes n)
      (slowTimes n) (hinv n)).2.1
    rw [hfl] at hn
    cases hn

theorem adaptive_tracker_commit_witness :
    2 < ([1, 2, 3] : List ℚ).length ∧
    (runTracker (tracker3 0) [1, 2, 3])[2]? = some (true, false) := by
  have h := adaptive_tracker_commit 0 [1, 2, 3] 2 (by norm_num)
  refine ⟨by norm_num, ?_⟩
  rw [h]
  norm_num

lemma query_mem_char (db : GalaxyDatabase) (cx cy cz r : ℚ)
    (s : SystemData) (p : Option PopulationData) (d : ℚ)
    (h : (s, p, d) ∈ query_systems_by_radius db cx cy cz r) :
    (∃ row ∈ db.systems, toSystemData row = s) ∧
    p = get_population_by_id64 db s.id64 ∧
    d = (s.x - cx) * (s.x - cx) + (s.y - cy) * (s.y - cy) +
      (s.z - cz) * (s.z - cz) ∧ d ≤ r * r := by
  simp only [query_systems_by_radius] at h
  rw [List.mem_filterMap] at h
  obtain ⟨a, ha, hfa⟩ := h
  by_cases hcond : (a.x - cx) * (a.x - cx) + (a.y - cy) * (a.y - cy) +
      (a.z - cz) * (a.z - cz) ≤ r * r
  · rw [if_pos hcond] at hfa
    have heq := Option.some.inj hfa
    have h1 : a = s := congrArg Prod.fst heq
    have h2 : get_population_by_id64 db a.id64 = p := congrArg (fun t => t.2.1) heq
    have h3 : (a.x - cx) * (a.x - cx) + (a.y - cy) * (a.y - cy) +
        (a.z - cz) * (a.z - cz) = d := congrArg (fun t => t.2.2) heq
    subst h1
    obtain ⟨row, hrowf, hrowa⟩ := List.mem_map.mp ha
    exact ⟨⟨row, List.mem_of_mem_filter hrowf, hrowa⟩, h2.symm, h3.symm,
      h3 ▸ hcond⟩
  · rw [if_neg hcond] at hfa
    cases hfa

lemma get_system_by_id64_id (db : GalaxyDatabase) (k : Int) (a : SystemData)
    (h : get_system_by_id64 db k = some a) : a.id64 = k := by
  unfold get_system_by_id64 at h
  cases hf : db.systems.find? (fun r => r.id64 == k) with
  | none => rw [hf] at h; cases h
  | some row =>
    rw [hf] at h
    have hrk : row.id64 = k := by simpa using List.find?_some hf
    have : toSystemData row = a := Option.some.inj h
    rw [← this]
    exact hrk

lemma get_population_by_id64_id (db : GalaxyDatabase) (k : Int) (q : PopulationData)
    (h : get_population_by_id64 db k = some q) : q.id64 = k := by
  unfold get_population_by_id64 at h
  simpa using List.find?_some h

lemma find?_of_mem_nodup {α : Type} (key : α → Int) :
    ∀ (l : List α), (l.map key).Nodup → ∀ a ∈ l,
      l.find? (fun x => key x == key a) = some a := by
  intro l
  induction l with
  | nil => intro _ a ha; simp at ha
  | cons b l ih =>
    intro hnd a ha
    have hnd' : (l.map key).Nodup := (List.nodup_cons.mp hnd).2
    have hbk : key b ∉ l.map key := (List.nodup_cons.mp hnd).1
    by_cases hk : key b = key a
    · have hab : a = b := by
        rcases List.mem_cons.mp ha with h | h
        · exact h
        · exact absurd (hk ▸ List.mem_map_of_mem key h) hbk
      subst hab
      rw [List.find?_cons]
      simp [hk]
    · rcases List.mem_cons.mp ha with h | h
      · exact absurd (congrArg key h.symm) hk
      · rw [List.find?_cons]
        have : (key b == key a) = false := by simp [hk]
        rw [this]
        exact ih hnd' a h

lemma popMap_get (db : GalaxyDatabase)
    (hp : (db.pops.map (fun p => p.id64)).Nodup) (ids : List Int) (k : Int)
    (hk : k ∈ ids) :
    dictGet (dictOf (fun p => p.id64)
      ((get_populations_by_id64s db ids).filterMap id)) k =
    get_population_by_id64 db k := by
  rw [get_populations_by_id64s_eq db hp]
  have hchar : ∀ a ∈ (ids.map (get_population_by_id64 db)).filterMap id,
      get_population_by_id64 db a.id64 = some a := by
    intro a ha
    obtain ⟨o, ho, hoa⟩ := List.mem_filterMap.mp ha
    obtain ⟨k', _, hk'⟩ := List.mem_map.mp ho
    have hoa' : o = some a := hoa
    rw [hoa'] at hk'
    have := get_population_by_id64_id db k' a hk'
    rw [← this] at hk'
    exact hk'
  cases hf : get_population_by_id64 db k with
  | none =>
    apply dictGet_dictOf_eq_none
    intro v hv hvk
    have := hchar v hv
    rw [hvk, hf] at this
    cases this
  | some q =>
    have hqm : q ∈ (ids.map (get_population_by_id64 db)).filterMap id := by
      apply List.mem_filterMap.mpr
      exact ⟨some q, List.mem_map.mpr ⟨k, hk, hf⟩, rfl⟩
    have hcoh : ∀ a ∈ (ids.map (get_population_by_id64 db)).filterMap id,
        ∀ b ∈ (ids.map (get_population_by_id64 db)).filterMap id,
        a.id64 = b.id64 → a = b := by
      intro a ha b hb hab
      have h1 := hchar a ha
      have h2 := hchar b hb
      rw [hab, h2] at h1
      exact (Option.some.inj h1).symm
    have := dictGet_dictOf_of_mem (fun p => p.id64) _ q hqm hcoh
    simp only [get_population_by_id64_id db k q hf] at this
    rw [this]

lemma sysMap_get (db : GalaxyDatabase)
    (hs : (db.systems.map (fun r => r.id64)).Nodup) (ids : List Int) (k : Int)
    (hk : k ∈ ids) :
    dictGet (dictOf (fun s => s.id64)
      ((get_systems_by_id64s db ids).filterMap id)) k =
    get_system_by_id64 db k := by
  rw [get_systems_by_id64s_eq db hs]
  have hchar : ∀ a ∈ (ids.map (get_system_by_id64 db)).filterMap id,
      get_system_by_id64 db a.id64 = some a := by
    intro a ha
    obtain ⟨o, ho, hoa⟩ := List.mem_filterMap.mp ha
    obtain ⟨k', _, hk'⟩ := List.mem_map.mp ho
    have hoa' : o = some a := hoa
    rw [hoa'] at hk'
    have := get_system_by_id64_id db k' a hk'
    rw [← this] at hk'
    exact hk'
  cases hf : get_system_by_id64 db k with
  | none =>
    apply dictGet_dictOf_eq_none
    intro v hv hvk
    have := hchar v hv
    rw [hvk, hf] at this
    cases this
  | some q =>
    have hqm : q ∈ (ids.map (get_system_by_id64 db)).filterMap id := by
      apply List.mem_filterMap.mpr
      exact ⟨some q, List.mem_map.mpr ⟨k, hk, hf⟩, rfl⟩
    have hcoh : ∀ a ∈ (ids.map (get_system_by_id64 db)).filterMap id,
        ∀ b ∈ (ids.map (get_system_by_id64 db)).filterMap id,
        a.id64 = b.id64 → a = b := by
      intro a ha b hb hab
      have h1 := hchar a ha
      have h2 := hchar b hb
      rw [hab, h2] at h1
      exact (Option.some.inj h1).symm
    have := dictGet_dictOf_of_mem (fun s => s.id64) _ q hqm hcoh
    simp only [get_system_by_id64_id db k q hf] at this
    rw [this]

lemma find_colony_output (db : GalaxyDatabase) (faction_name : String)
    (refOpt : Option (String × ℚ)) (candidate_range : ℚ)
    (L : List (SystemData × Option PopulationData × ℚ × Int))
    (hL : find_colony_candidates db faction_name refOpt candidate_range = some L) :
    ∃ F, factionSystemsOf db faction_name refOpt = some F ∧
      L = (gatherInfo db candidate_range F).filterMap
        (finalizeCandidate
          (dictOf (fun s => s.id64)
            ((get_systems_by_id64s db
              ((gatherInfo db candidate_range F).map (fun e => e.1))).filterMap id))
          (dictOf (fun p => p.id64)
            ((get_populations_by_id64s db
              ((gatherInfo db candidate_range F).map (fun e => e.1))).filterMap id))) := by
  cases hF : factionSystemsOf db faction_name refOpt with
  | none =>
    simp only [find_colony_candidates, hF] at hL
    cases hL
  | some F =>
    simp only [find_colony_candidates, hF] at hL
    by_cases hFe : F.isEmpty = true
    · rw [if_pos hFe] at hL; cases hL
    · rw [if_neg hFe] at hL
      by_cases hIe : (gatherInfo db candidate_range F).isEmpty = true
      · rw [if_pos hIe] at hL; cases hL
      · rw [if_neg hIe] at hL
        exact ⟨F, rfl, (Option.some.inj hL).symm⟩

lemma factionSystems_pop (db : GalaxyDatabase)
    (hp : (db.pops.map (fun p => p.id64)).Nodup)
    (faction_name : String) (refOpt : Option (String × ℚ))
    (F : List (SystemData × PopulationData))
    (hF : factionSystemsOf db faction_name refOpt = some F)
    (hne : faction_name ≠ "") :
    ∀ fsp ∈ F, get_population_by_id64 db fsp.1.id64 = some fsp.2 ∧
      fsp.2.controllingFaction ≠ "" := by
  intro fsp hfsp
  cases refOpt with
  | none =>
    have hFq : F = query_systems_by_faction db faction_name :=
      (Option.some.inj hF).symm
    rw [hFq] at hfsp
    simp only [query_systems_by_faction] at hfsp
    rw [List.mem_flatMap] at hfsp
    obtain ⟨q, hq, hmem⟩ := hfsp
    by_cases hcond : (if is_any_faction faction_name
        then q.controllingFaction != ""
        else q.controllingFaction == faction_name) = true
    · rw [if_pos hcond] at hmem
      obtain ⟨row, hrow, hroweq⟩ := List.mem_map.mp hmem
      have h1 : toSystemData row = fsp.1 := congrArg Prod.fst hroweq
      have h2 : q = fsp.2 := congrArg Prod.snd hroweq
      have hrowid : row.id64 = q.id64 := by
        have := List.mem_filter.mp hrow
        simpa using this.2
      have hfspid : fsp.1.id64 = q.id64 := by
        rw [← h1]
        exact hrowid
      constructor
      · rw [hfspid, ← h2]
        exact find?_of_mem_nodup (fun p => p.id64) db.pops hp q hq
      · rw [← h2]
        by_cases hany : is_any_faction faction_name = true
        · rw [if_pos hany] at hcond
          simpa using hcond
        · rw [if_neg hany] at hcond
          have : q.controllingFaction = faction_name := by simpa using hcond
          rw [this]
          exact hne
    · rw [if_neg hcond] at hmem
      simp at hmem
  | some rr =>
    obtain ⟨rname, rrange⟩ := rr
    cases hrs : get_system_by_name db rname with
    | none => simp only [factionSystemsOf, hrs] at hF; cases hF
    | some ref =>
      simp only [factionSystemsOf, hrs] at hF
      have hFq := (Option.some.inj hF).symm
      rw [hFq] at hfsp
      obtain ⟨spd, hspd, hspdeq⟩ := List.mem_filterMap.mp hfsp
      obtain ⟨s', popOpt, d⟩ := spd
      cases popOpt with
      | none => simp at hspdeq
      | some pop =>
        simp only at hspdeq
        by_cases hcond : ((pop.controllingFaction == faction_name) ||
            (is_any_faction faction_name && pop.controllingFaction != "")) = true
        · rw [if_pos hcond] at hspdeq
          have heq := Option.some.inj hspdeq
          have h1 : s' = fsp.1 := congrArg Prod.fst heq
          have h2 : pop = fsp.2 := congrArg Prod.snd heq
          have hchar := query_mem_char db ref.x ref.y ref.z rrange s' (some pop) d hspd
          constructor
          · rw [← h1, ← h2]
            exact hchar.2.1.symm
          · rw [← h2]
            rcases Bool.or_eq_true_iff.mp hcond with hc | hc
            · have : pop.controllingFaction = faction_name := by simpa using hc
              rw [this]
              exact hne
            · have := Bool.and_eq_true_iff.mp hc
              simpa using this.2
        · rw [if_neg hcond] at hspdeq
          cases hspdeq

/-- C3 (amended): every system in the final colony-candidate output is
unclaimed under the freshest read — its population record, if any, has the
empty controlling faction — and, whenever the searched faction name is
non-empty (including the "ANY" sentinel), no output system's id64 equals the
id64 of any faction system of the search.  For the empty faction name the
faction systems are themselves unclaimed and can appear as candidates, so
the id-exclusion part is restricted to non-empty names. -/
theorem colony_candidate_exclusion (db : GalaxyDatabase)
    (hp : (db.pops.map (fun p => p.id64)).Nodup)
    (faction_name : String) (refOpt : Option (String × ℚ)) (candidate_range : ℚ)
    (L : List (SystemData × Option PopulationData × ℚ × Int))
    (hL : find_colony_candidates db faction_name refOpt candidate_range = some L) :
    ∀ e ∈ L,
      (∀ q : PopulationData, get_population_by_id64 db e.1.id64 = some q →
        q.controllingFaction = "") ∧
      (faction_name ≠ "" →
        ∀ F, factionSystemsOf db faction_name refOpt = some F →
          ∀ fsp ∈ F, e.1.id64 ≠ fsp.1.id64) := by
  intro e he
  obtain ⟨F, hF, hLeq⟩ := find_colony_output db faction_name refOpt candidate_range L hL
  rw [hLeq] at he
  obtain ⟨entry, hentry, hfin⟩ := List.mem_filterMap.mp he
  have hkid : entry.1 ∈ (gatherInfo db candidate_range F).map (fun e => e.1) :=
    List.mem_map_of_mem _ hentry
  simp only [finalizeCandidate] at hfin
  split at hfin
  · cases hfin
  · rename_i s hsome
    by_cases hun : unclaimedPop (dictGet (dictOf (fun p => p.id64)
        ((get_populations_by_id64s db
          ((gatherInfo db candidate_range F).map (fun e => e.1))).filterMap id))
        entry.1) = true
    · rw [if_pos hun] at hfin
      have he2 := Option.some.inj hfin
      have hsid : s.id64 = entry.1 :=
        (dictGet_dictOf_some _ _ _ _ hsome).2
      have hpget := popMap_get db hp
        ((gatherInfo db candidate_range F).map (fun e => e.1)) entry.1 hkid
      have he1 : e.1 = s := (congrArg Prod.fst he2).symm
      have hmain : ∀ q : PopulationData,
          get_population_by_id64 db e.1.id64 = some q →
          q.controllingFaction = "" := by
        intro q hq
        rw [he1, hsid] at hq
        rw [hpget, hq] at hun
        simpa [unclaimedPop] using hun
      refine ⟨hmain, ?_⟩
      intro hne F' hF' fsp hfsp heqid
      have hFF : F' = F := Option.some.inj (hF'.symm.trans hF)
      obtain ⟨hlk, hcf⟩ := factionSystems_pop db hp faction_name refOpt F hF hne
        fsp (hFF ▸ hfsp)
      exact hcf (hmain fsp.2 (by rw [heqid]; exact hlk))
    · rw [if_neg hun] at hfin
      cases hfin

def exRowC1 : SystemRow := ⟨1, 0, 0, 0, 0, 0, 0, "Home", "K"⟩

def exRowC2 : SystemRow := ⟨2, 0, 0, 0, 5, 0, 0, "Near", "M"⟩

def exPopC1 : PopulationData := ⟨1, some 100, "Low", "", "Agri", ""⟩

def exPopC2 : PopulationData := ⟨2, some 200, "Low", "", "Agri", ""⟩

def exDbE : GalaxyDatabase := ⟨[exRowC1, exRowC2], [exPopC1, exPopC2]⟩

def sHome : SystemData := ⟨1, 0, 0, 0, "Home", "K"⟩

def sNear : SystemData := ⟨2, 5, 0, 0, "Near", "M"⟩

lemma eval_qA : query_systems_by_radius exDbE 0 0 0 10 =
    [(sHome, some exPopC1, 0), (sNear, some exPopC2, 25)] := by
  simp only [query_systems_by_radius, query_grid_cell_range, exDbE, exRowC1, exRowC2,
    List.filter_cons, List.filter_nil, List.map_cons, List.map_nil,
    List.filterMap_cons, List.filterMap_nil, toSystemData, sHome, sNear]
  norm_num [GRID, get_population_by_id64, exDbE, exPopC1, exPopC2, sHome, sNear]
  norm_num [toSystemData, List.filterMap_cons, List.filterMap_nil, List.find?_cons,
    get_population_by_id64, exDbE, exPopC1, exPopC2, sHome, sNear]
  decide

lemma eval_qB : query_systems_by_radius exDbE 5 0 0 10 =
    [(sHome, some exPopC1, 25), (sNear, some exPopC2, 0)] := by
  simp only [query_systems_by_radius, query_grid_cell_range, exDbE, exRowC1, exRowC2,
    List.filter_cons, List.filter_nil, List.map_cons, List.map_nil,
    List.filterMap_cons, List.filterMap_nil, toSystemData, sHome, sNear]
  norm_num [GRID, get_population_by_id64, exDbE, exPopC1, exPopC2, sHome, sNear]
  norm_num [toSystemData, List.filterMap_cons, List.filterMap_nil, List.find?_cons,
    get_population_by_id64, exDbE, exPopC1, exPopC2, sHome, sNear]
  decide

lemma eval_F : factionSystemsOf exDbE "" none =
    some [(sHome, exPopC1), (sNear, exPopC2)] := by
  rfl

lemma eval_info : gatherInfo exDbE 10 [(sHome, exPopC1), (sNear, exPopC2)] =
    [(2, 25, 1), (1, 25, 2)] := by
  simp only [gatherInfo, List.foldl_cons, List.foldl_nil, sHome, sNear]
  rw [eval_qA, eval_qB]
  rfl

lemma eval_colony : find_colony_candidates exDbE "" none 10 =
    some [(sNear, some exPopC2, 25, 1), (sHome, some exPopC1, 25, 2)] := by
  simp only [find_colony_candidates, eval_F, List.isEmpty_cons, Bool.false_eq_true,
    if_false, eval_info]
  rfl

def exPopW : PopulationData := ⟨1, some 100, "Low", "Reb", "Agri", ""⟩

def exDbW : GalaxyDatabase := ⟨[exRowC1, exRowC2], [exPopW]⟩

lemma eval_qW : query_systems_by_radius exDbW 0 0 0 10 =
    [(sHome, some exPopW, 0), (sNear, none, 25)] := by
  simp only [query_systems_by_radius, query_grid_cell_range, exDbW, exRowC1, exRowC2,
    List.filter_cons, List.filter_nil, List.map_cons, List.map_nil,
    List.filterMap_cons, List.filterMap_nil, toSystemData, sHome, sNear]
  norm_num [GRID, get_population_by_id64, exDbW, exPopW, sHome, sNear]
  norm_num [toSystemData, List.filterMap_cons, List.filterMap_nil, List.find?_cons,
    get_population_by_id64, exDbW, exPopW, sHome, sNear]

lemma eval_FW : factionSystemsOf exDbW "Reb" none = some [(sHome, exPopW)] := by
  rfl

lemma eval_infoW : gatherInfo exDbW 10 [(sHome, exPopW)] = [(2, 25, 1)] := by
  simp only [gatherInfo, List.foldl_cons, List.foldl_nil, sHome]
  rw [eval_qW]
  rfl

lemma eval_colonyW : find_colony_candidates exDbW "Reb" none 10 =
    some [(sNear, none, 25, 1)] := by
  simp only [find_colony_candidates, eval_FW, List.isEmpty_cons, Bool.false_eq_true,
    if_false, eval_infoW]
  rfl

/-- C3 counterexample: with the empty faction name, the faction systems are
the unclaimed systems themselves; searching around them returns the other
faction systems as candidates, so the output contains `sNear` (id64 2) even
though `(sNear, exPopC2)` is a faction system of the search — the claimed
faction-system exclusion fails for the empty faction name. -/
theorem colony_candidate_exclusion_counterexample :
    find_colony_candidates exDbE "" none 10 =
      some [(sNear, some exPopC2, 25, 1), (sHome, some exPopC1, 25, 2)] ∧
    factionSystemsOf exDbE "" none = some [(sHome, exPopC1), (sNear, exPopC2)] ∧
    (sNear, some exPopC2, (25 : ℚ), (1 : Int)) ∈
      [((sNear : SystemData), some exPopC2, (25 : ℚ), (1 : Int)),
        (sHome, some exPopC1, 25, 2)] ∧
    (sNear, exPopC2) ∈ [((sHome : SystemData), exPopC1), (sNear, exPopC2)] ∧
    sNear.id64 = 2 :=
  ⟨eval_colony, eval_F, by simp, by simp, rfl⟩

theorem colony_candidate_exclusion_witness :
    (exDbW.pops.map (fun p => p.id64)).Nodup ∧
    find_colony_candidates exDbW "Reb" none 10 = some [(sNear, none, 25, 1)] ∧
    (∀ q : PopulationData, get_population_by_id64 exDbW sNear.id64 = some q →
      q.controllingFaction = "") ∧
    ∀ fsp ∈ [((sHome : SystemData), exPopW)], sNear.id64 ≠ fsp.1.id64 := by
  have hnd : (exDbW.pops.map (fun p => p.id64)).Nodup := by simp [exDbW]
  have h := colony_candidate_exclusion exDbW hnd "Reb" none 10 _ eval_colonyW
    (sNear, none, 25, 1) (by simp)
  refine ⟨hnd, eval_colonyW, h.1, ?_⟩
  intro fsp hfsp
  exact h.2 (by simp) [(sHome, exPopW)] eval_FW fsp hfsp

/-- Squared Euclidean distance from `center` to `s`, the quantity whose
square root `find_colony_candidates` reports as `dist_to_faction`. -/
def distSqTo (center s : SystemData) : ℚ :=
  (s.x - center.x) * (s.x - center.x) + (s.y - center.y) * (s.y - center.y) +
    (s.z - center.z) * (s.z - center.z)

/-- The observation one scan entry contributes to candidate `cid` while
processing faction system `fid`: its (squared) distance paired with `fid`,
provided the entry is candidate `cid` itself, is not the faction system, and
is unclaimed. -/
def candObserved (cid fid : Int) (c : SystemData × Option PopulationData × ℚ) :
    Option (ℚ × Int) :=
  if c.1.id64 = cid ∧ c.1.id64 ≠ fid ∧ unclaimedPop c.2.1 = true then
    some (c.2.2, fid)
  else none

/-- Running strict minimum with first-seen-wins tie-break, the per-candidate
content of the `candidate_info` update. -/
def minFold (acc : Option (ℚ × Int)) (l : List (ℚ × Int)) : Option (ℚ × Int) :=
  l.foldl (fun a p =>
    match a with
    | none => some p
    | some q => if p.1 < q.1 then some p else some q) acc

lemma considerCandidate_get (fid : Int) (m : List (Int × ℚ × Int))
    (c : SystemData × Option PopulationData × ℚ) (cid : Int) :
    dictGet (considerCandidate fid m c) cid =
      match candObserved cid fid c with
      | none => dictGet m cid
      | some p =>
        match dictGet m cid with
        | none => some p
        | some cur => if p.1 < cur.1 then some p else some cur := by
  by_cases hself : (c.1.id64 == fid) = true
  · have hfid : c.1.id64 = fid := by simpa using hself
    have hne : ¬(c.1.id64 = cid ∧ c.1.id64 ≠ fid ∧ unclaimedPop c.2.1 = true) :=
      fun hand => hand.2.1 hfid
    simp only [considerCandidate, candObserved, if_pos hself, if_neg hne]
  · have hcfid : c.1.id64 ≠ fid := by simpa using hself
    by_cases hunc : unclaimedPop c.2.1 = true
    · by_cases hcid : c.1.id64 = cid
      · have hcidfid : cid ≠ fid := hcid ▸ hcfid
        simp only [considerCandidate, candObserved, hcid, beq_iff_eq, hcidfid, hunc,
          ne_eq, not_false_eq_true, and_true, true_and, and_self, if_false, if_true,
          eq_self_iff_true, if_neg hcidfid]
        cases hget : dictGet m cid with
        | none => simp only [hget, dictGet_insert_self]
        | some cur =>
          simp only [hget]
          by_cases hlt : c.2.2 < cur.1
          · simp only [if_pos hlt, dictGet_insert_self]
          · simp only [if_neg hlt, hget]
      · have hcond : ¬(c.1.id64 = cid ∧ c.1.id64 ≠ fid ∧ unclaimedPop c.2.1 = true) :=
          fun hand => hcid hand.1
        simp only [considerCandidate, candObserved, if_neg hself, if_pos hunc,
          if_neg hcond]
        cases hget : dictGet m c.1.id64 with
        | none =>
          simp only [hget, dictGet_insert_ne m c.1.id64 (c.2.2, fid) cid
            (fun h => hcid h.symm)]
        | some cur =>
          simp only [hget]
          by_cases hlt : c.2.2 < cur.1
          · simp only [if_pos hlt, dictGet_insert_ne m c.1.id64 (c.2.2, fid) cid
              (fun h => hcid h.symm)]
          · simp only [if_neg hlt]
    · have hcond : ¬(c.1.id64 = cid ∧ c.1.id64 ≠ fid ∧ unclaimedPop c.2.1 = true) :=
        fun hand => hunc hand.2.2
      simp only [considerCandidate, candObserved, if_neg hself, if_neg hunc, if_neg hcond]

lemma minFold_cons (acc : Option (ℚ × Int)) (p : ℚ × Int) (l : List (ℚ × Int)) :
    minFold acc (p :: l) = minFold
      (match acc with
        | none => some p
        | some q => if p.1 < q.1 then some p else some q) l := rfl

lemma foldl_consider_get (fid cid : Int) :
    ∀ (cs : List (SystemData × Option PopulationData × ℚ)) (m : List (Int × ℚ × Int)),
      dictGet (cs.foldl (fun m2 c => considerCandidate fid m2 c) m) cid =
        minFold (dictGet m cid) (cs.filterMap (candObserved cid fid)) := by
  intro cs
  induction cs with
  | nil => intro m; rfl
  | cons c cs ih =>
    intro m
    rw [List.foldl_cons, ih, considerCandidate_get, List.filterMap_cons]
    cases hobs : candObserved cid fid c with
    | none => simp only [hobs]
    | some p => simp only [hobs, minFold_cons]

lemma dictInsert_keys_nodup {α : Type} (m : List (Int × α)) (k : Int) (v : α)
    (h : (m.map (fun e => e.1)).Nodup) :
    ((dictInsert m k v).map (fun e => e.1)).Nodup := by
  unfold dictInsert
  by_cases hc : (m.find? (fun e => e.1 == k)).isSome
  · simp only [hc, if_true]
    have : ((m.map (fun e => if e.1 == k then (k, v) else e)).map (fun e => e.1)) =
        m.map (fun e => e.1) := by
      rw [List.map_map]
      apply List.map_congr_left
      intro e _
      by_cases he : e.1 = k
      · simp [he]
      · simp [he]
    rw [this]
    exact h
  · simp only [hc]
    rw [if_neg Bool.false_ne_true]
    have hk : k ∉ m.map (fun e => e.1) := by
      intro hmem
      obtain ⟨e, he, heq⟩ := List.mem_map.mp hmem
      have : m.find? (fun e => e.1 == k) = none := Option.not_isSome_iff_eq_none.mp hc
      have := List.find?_eq_none.mp this e he
      simp [heq] at this
    rw [List.map_append]
    simp [List.nodup_append, h, hk]

lemma considerCandidate_keys_nodup (fid : Int) (m : List (Int × ℚ × Int))
    (c : SystemData × Option PopulationData × ℚ)
    (h : (m.map (fun e => e.1)).Nodup) :
    (((considerCandidate fid m c).map (fun e => e.1))).Nodup := by
  unfold considerCandidate
  split_ifs with h1 h2
  · exact h
  · cases hget : dictGet m c.1.id64 with
    | none => simp only [hget]; exact dictInsert_keys_nodup m _ _ h
    | some cur =>
      simp only [hget]
      by_cases hlt : c.2.2 < cur.1
      · rw [if_pos hlt]; exact dictInsert_keys_nodup m _ _ h
      · rw [if_neg hlt]; exact h
  · exact h

lemma gatherInfo_keys_nodup (db : GalaxyDatabase) (r : ℚ)
    (F : List (SystemData × PopulationData)) :
    ((gatherInfo db r F).map (fun e => e.1)).Nodup := by
  unfold gatherInfo
  have hinner : ∀ (cs : List (SystemData × Option PopulationData × ℚ)) (fid : Int)
      (m : List (Int × ℚ × Int)), (m.map (fun e => e.1)).Nodup →
      ((cs.foldl (fun m2 c => considerCandidate fid m2 c) m).map (fun e => e.1)).Nodup := by
    intro cs
    induction cs with
    | nil => intro fid m hm; exact hm
    | cons c cs ih =>
      intro fid m hm
      rw [List.foldl_cons]
      exact ih fid _ (considerCandidate_keys_nodup fid m c hm)
  have houter : ∀ (F' : List (SystemData × PopulationData)) (m : List (Int × ℚ × Int)),
      (m.map (fun e => e.1)).Nodup →
      ((F'.foldl (fun m fsp =>
        (query_systems_by_radius db fsp.1.x fsp.1.y fsp.1.z r).foldl
          (fun m2 c => considerCandidate fsp.1.id64 m2 c) m) m).map (fun e => e.1)).Nodup := by
    intro F'
    induction F' with
    | nil => intro m hm; exact hm
    | cons fsp F' ih =>
      intro m hm
      rw [List.foldl_cons]
      exact ih _ (hinner _ _ _ hm)
  exact houter F [] (by simp)

lemma mem_dictGet {α : Type} (m : List (Int × α))
    (h : (m.map (fun e => e.1)).Nodup) (e : Int × α) (he : e ∈ m) :
    dictGet m e.1 = some e.2 := by
  unfold dictGet
  rw [find?_of_mem_nodup (fun x => x.1) m h e he]
  rfl

lemma gatherInfo_get (db : GalaxyDatabase) (r : ℚ)
    (F : List (SystemData × PopulationData)) (cid : Int) :
    dictGet (gatherInfo db r F) cid =
      minFold none (F.flatMap (fun fsp =>
        (query_systems_by_radius db fsp.1.x fsp.1.y fsp.1.z r).filterMap
          (candObserved cid fsp.1.id64))) := by
  unfold gatherInfo
  have haux : ∀ (F' : List (SystemData × PopulationData)) (m : List (Int × ℚ × Int)),
      dictGet (F'.foldl (fun m fsp =>
        (query_systems_by_radius db fsp.1.x fsp.1.y fsp.1.z r).foldl
          (fun m2 c => considerCandidate fsp.1.id64 m2 c) m) m) cid =
      minFold (dictGet m cid) (F'.flatMap (fun fsp =>
        (query_systems_by_radius db fsp.1.x fsp.1.y fsp.1.z r).filterMap
          (candObserved cid fsp.1.id64))) := by
    intro F'
    induction F' with
    | nil => intro m; rfl
    | cons fsp F' ih =>
      intro m
      rw [List.foldl_cons, ih, foldl_consider_get, List.flatMap_cons]
      unfold minFold
      rw [List.foldl_append]
  exact haux F []

lemma minFold_map_acc_char {β : Type} (f : β → ℚ × Int) :
    ∀ (l : List β) (acc : ℚ × Int) (d : ℚ) (i : Int),
      minFold (some acc) (l.map f) = some (d, i) →
      ((d, i) = acc ∧ ∀ a ∈ l, d ≤ (f a).1) ∨
      (∃ l1 b l2, l = l1 ++ b :: l2 ∧ f b = (d, i) ∧ d < acc.1 ∧
        (∀ a ∈ l1, d < (f a).1) ∧ (∀ a ∈ l2, d ≤ (f a).1)) := by
  intro l
  induction l with
  | nil =>
    intro acc d i h
    left
    refine ⟨(Option.some.inj h).symm, ?_⟩
    intro a ha
    simp at ha
  | cons b l ih =>
    intro acc d i h
    rw [List.map_cons, minFold_cons] at h
    by_cases hlt : (f b).1 < acc.1
    · rw [show (match some acc with
        | none => some (f b)
        | some q => if (f b).1 < q.1 then some (f b) else some q) = some (f b) from by
          show (if (f b).1 < acc.1 then some (f b) else some acc) = some (f b)
          rw [if_pos hlt]] at h
      rcases ih (f b) d i h with ⟨heq, hall⟩ | ⟨l1, b', l2, hsplit, hfb, hdlt, h1, h2⟩
      · right
        refine ⟨[], b, l, by simp, heq.symm, ?_, by simp, hall⟩
        rw [show d = (f b).1 from congrArg Prod.fst heq]
        exact hlt
      · right
        refine ⟨b :: l1, b', l2, by rw [hsplit]; rfl, hfb, lt_trans hdlt hlt, ?_, h2⟩
        intro a ha
        rcases List.mem_cons.mp ha with ha | ha
        · rw [ha]; exact hdlt
        · exact h1 a ha
    · rw [show (match some acc with
        | none => some (f b)
        | some q => if (f b).1 < q.1 then some (f b) else some q) = some acc from by
          show (if (f b).1 < acc.1 then some (f b) else some acc) = some acc
          rw [if_neg hlt]] at h
      rcases ih acc d i h with ⟨heq, hall⟩ | ⟨l1, b', l2, hsplit, hfb, hdlt, h1, h2⟩
      · left
        refine ⟨heq, ?_⟩
        intro a ha
        rcases List.mem_cons.mp ha with ha | ha
        · rw [ha]
          rw [show d = acc.1 from congrArg Prod.fst heq]
          exact not_lt.mp hlt
        · exact hall a ha
      · right
        refine ⟨b :: l1, b', l2, by rw [hsplit]; rfl, hfb, hdlt, ?_, h2⟩
        intro a ha
        rcases List.mem_cons.mp ha with ha | ha
        · rw [ha]
          exact lt_of_lt_of_le hdlt (not_lt.mp hlt)
        · exact h1 a ha

lemma minFold_map_char {β : Type} (f : β → ℚ × Int) (l : List β) (d : ℚ) (i : Int)
    (h : minFold none (l.map f) = some (d, i)) :
    ∃ l1 b l2, l = l1 ++ b :: l2 ∧ f b = (d, i) ∧
      (∀ a ∈ l1, d < (f a).1) ∧ (∀ a ∈ l2, d ≤ (f a).1) := by
  cases l with
  | nil => cases h
  | cons b l =>
    rw [List.map_cons, minFold_cons] at h
    rcases minFold_map_acc_char f l (f b) d i h with ⟨heq, hall⟩ |
      ⟨l1, b', l2, hsplit, hfb, hdlt, h1, h2⟩
    · exact ⟨[], b, l, by simp, heq.symm, by simp, hall⟩
    · refine ⟨b :: l1, b', l2, by rw [hsplit]; rfl, hfb, ?_, h2⟩
      intro a ha
      rcases List.mem_cons.mp ha with ha | ha
      · rw [ha]; exact hdlt
      · exact h1 a ha

lemma filterMap_single_key {β : Type} (cid : Int) :
    ∀ (l : List SystemRow), (l.map (fun r => r.id64)).Nodup →
      ∀ (g : SystemRow → Option β), (∀ row, g row ≠ none → row.id64 = cid) →
        l.filterMap g =
          match l.find? (fun r => r.id64 == cid) with
          | none => []
          | some row => (g row).toList := by
  intro l
  induction l with
  | nil => intro _ g _; rfl
  | cons b l ih =>
    intro hnd g hg
    have hnd' : (l.map (fun r => r.id64)).Nodup := (List.nodup_cons.mp hnd).2
    have hbk : b.id64 ∉ l.map (fun r => r.id64) := (List.nodup_cons.mp hnd).1
    rw [List.filterMap_cons, List.find?_cons]
    by_cases hb : b.id64 = cid
    · rw [show (b.id64 == cid) = true by simp [hb]]
      have hrest : l.filterMap g = [] := by
        rw [List.filterMap_eq_nil_iff]
        intro a ha
        by_contra hne
        have haid : a.id64 = cid := hg a hne
        exact hbk (by rw [hb, ← haid]; exact List.mem_map_of_mem _ ha)
      rw [hrest]
      cases hgb : g b <;> simp [hgb]
    · rw [show (b.id64 == cid) = false by simp [hb]]
      have hgb : g b = none := by
        by_contra hne
        exact hb (hg b hne)
      simp only [hgb]
      exact ih hnd' g hg

/-- The contribution of one stored row to `query_systems_by_radius`: present
when its grid cell is in the scanned range and its squared distance is
within the squared radius. -/
def queryRowGen (db : GalaxyDatabase) (cx cy cz r : ℚ) (row : SystemRow) :
    Option (SystemData × Option PopulationData × ℚ) :=
  if ⌊(cx - r) / GRID⌋ ≤ row.grid_x ∧ row.grid_x ≤ ⌊(cx + r) / GRID⌋ ∧
      ⌊(cy - r) / GRID⌋ ≤ row.grid_y ∧ row.grid_y ≤ ⌊(cy + r) / GRID⌋ ∧
      ⌊(cz - r) / GRID⌋ ≤ row.grid_z ∧ row.grid_z ≤ ⌊(cz + r) / GRID⌋ then
    if (row.x - cx) * (row.x - cx) + (row.y - cy) * (row.y - cy) +
        (row.z - cz) * (row.z - cz) ≤ r * r then
      some (toSystemData row, get_population_by_id64 db row.id64,
        (row.x - cx) * (row.x - cx) + (row.y - cy) * (row.y - cy) +
          (row.z - cz) * (row.z - cz))
    else none
  else none

lemma query_eq_rowGen (db : GalaxyDatabase) (cx cy cz r : ℚ) :
    query_systems_by_radius db cx cy cz r =
      db.systems.filterMap (queryRowGen db cx cy cz r) := by
  simp only [query_systems_by_radius, query_grid_cell_range]
  rw [List.filterMap_map, List.filterMap_filter]
  apply List.filterMap_congr
  intro row _
  by_cases h1 : ⌊(cx - r) / GRID⌋ ≤ row.grid_x ∧ row.grid_x ≤ ⌊(cx + r) / GRID⌋ ∧
      ⌊(cy - r) / GRID⌋ ≤ row.grid_y ∧ row.grid_y ≤ ⌊(cy + r) / GRID⌋ ∧
      ⌊(cz - r) / GRID⌋ ≤ row.grid_z ∧ row.grid_z ≤ ⌊(cz + r) / GRID⌋
  · rw [if_pos (by simpa using h1)]
    unfold queryRowGen
    rw [if_pos h1]
    rfl
  · rw [if_neg (by simpa using h1)]
    unfold queryRowGen
    rw [if_neg h1]

lemma queryRowGen_some (db : GalaxyDatabase) (cx cy cz r : ℚ) (row : SystemRow)
    (e : SystemData × Option PopulationData × ℚ)
    (h : queryRowGen db cx cy cz r row = some e) :
    e = (toSystemData row, get_population_by_id64 db row.id64,
      (row.x - cx) * (row.x - cx) + (row.y - cy) * (row.y - cy) +
        (row.z - cz) * (row.z - cz)) := by
  unfold queryRowGen at h
  split_ifs at h
  · exact (Option.some.inj h).symm

lemma query_candObserved (db : GalaxyDatabase)
    (hs : (db.systems.map (fun r => r.id64)).Nodup)
    (cx cy cz r : ℚ) (cid fid : Int) (s : SystemData)
    (hlk : get_system_by_id64 db cid = some s)
    (hunc : unclaimedPop (get_population_by_id64 db cid) = true) :
    (query_systems_by_radius db cx cy cz r).filterMap (candObserved cid fid) =
      if cid ≠ fid ∧ (query_systems_by_radius db cx cy cz r).any
          (fun e => e.1.id64 == cid) = true then
        [((s.x - cx) * (s.x - cx) + (s.y - cy) * (s.y - cy) +
          (s.z - cz) * (s.z - cz), fid)]
      else [] := by
  unfold get_system_by_id64 at hlk
  cases hf : db.systems.find? (fun r => r.id64 == cid) with
  | none => rw [hf] at hlk; cases hlk
  | some row0 =>
    rw [hf] at hlk
    have htds : toSystemData row0 = s := Option.some.inj hlk
    have hr0id : row0.id64 = cid := by simpa using List.find?_some hf
    have hsid : s.id64 = cid := by rw [← htds]; exact hr0id
    have hsx : s.x = row0.x := by rw [← htds]; rfl
    have hsy : s.y = row0.y := by rw [← htds]; rfl
    have hsz : s.z = row0.z := by rw [← htds]; rfl
    rw [query_eq_rowGen, List.filterMap_filterMap]
    have hg : ∀ row, (queryRowGen db cx cy cz r row).bind (candObserved cid fid) ≠ none →
        row.id64 = cid := by
      intro row hne
      cases hq : queryRowGen db cx cy cz r row with
      | none => rw [hq] at hne; simp at hne
      | some e =>
        rw [hq] at hne
        have hcne : candObserved cid fid e ≠ none := by simpa using hne
        unfold candObserved at hcne
        by_cases hc : e.1.id64 = cid ∧ e.1.id64 ≠ fid ∧ unclaimedPop e.2.1 = true
        · have he' := queryRowGen_some db cx cy cz r row e hq
          have h1 : e.1 = toSystemData row := congrArg Prod.fst he'
          have := hc.1
          rw [h1] at this
          exact this
        · rw [if_neg hc] at hcne
          exact absurd rfl hcne
    rw [filterMap_single_key cid db.systems hs _ hg, hf]
    show ((queryRowGen db cx cy cz r row0).bind (candObserved cid fid)).toList = _
    have hany : ((db.systems.filterMap (queryRowGen db cx cy cz r)).any
        (fun e => e.1.id64 == cid) = true) ↔
        queryRowGen db cx cy cz r row0 ≠ none := by
      constructor
      · intro h
        obtain ⟨e, he, hid⟩ := List.any_eq_true.mp h
        obtain ⟨row', hrow', hgen⟩ := List.mem_filterMap.mp he
        have he' := queryRowGen_some db cx cy cz r row' e hgen
        have hre : e.1.id64 = row'.id64 := by rw [he']; rfl
        have hid' : row'.id64 = cid := by rw [← hre]; simpa using hid
        have hfind := find?_of_mem_nodup (fun r => r.id64) db.systems hs row' hrow'
        simp only [hid'] at hfind
        rw [hf] at hfind
        have hrr : row0 = row' := Option.some.inj hfind
        rw [← hrr] at hgen
        rw [hgen]
        simp
      · intro h
        cases hq : queryRowGen db cx cy cz r row0 with
        | none => exact absurd hq h
        | some e =>
          apply List.any_eq_true.mpr
          refine ⟨e, List.mem_filterMap.mpr ⟨row0, List.mem_of_find?_eq_some hf, hq⟩, ?_⟩
          have he' := queryRowGen_some db cx cy cz r row0 e hq
          have hre : e.1.id64 = row0.id64 := by rw [he']; rfl
          simp [hre, hr0id]
    cases hq : queryRowGen db cx cy cz r row0 with
    | none =>
      have hcond : ¬(cid ≠ fid ∧ (db.systems.filterMap (queryRowGen db cx cy cz r)).any
          (fun e => e.1.id64 == cid) = true) :=
        fun hand => (hany.mp hand.2) hq
      rw [if_neg hcond]
      rfl
    | some e =>
      have he' := queryRowGen_some db cx cy cz r row0 e hq
      have he1 : e.1 = s := (congrArg Prod.fst he').trans htds
      have he2 : e.2.1 = get_population_by_id64 db cid := by
        have := congrArg (fun t => t.2.1) he'
        simp only at this
        rw [this, hr0id]
      have he3 : e.2.2 = (row0.x - cx) * (row0.x - cx) + (row0.y - cy) * (row0.y - cy) +
          (row0.z - cz) * (row0.z - cz) := by
        have := congrArg (fun t => t.2.2) he'
        simpa using this
      by_cases hcf : cid ≠ fid
      · have hcond1 : e.1.id64 = cid ∧ e.1.id64 ≠ fid ∧ unclaimedPop e.2.1 = true :=
          ⟨by rw [he1]; exact hsid, by rw [he1, hsid]; exact hcf, by rw [he2]; exact hunc⟩
        have hbind : (some e).bind (candObserved cid fid) = some (e.2.2, fid) := by
          simp only [Option.some_bind]
          unfold candObserved
          rw [if_pos hcond1]
        rw [hbind]
        have hcond : cid ≠ fid ∧ (db.systems.filterMap (queryRowGen db cx cy cz r)).any
            (fun e => e.1.id64 == cid) = true :=
          ⟨hcf, hany.mpr (by rw [hq]; simp)⟩
        rw [if_pos hcond]
        rw [hsx, hsy, hsz, he3]
        rfl
      · push_neg at hcf
        have hcond1 : ¬(e.1.id64 = cid ∧ e.1.id64 ≠ fid ∧ unclaimedPop e.2.1 = true) := by
          intro hand
          exact hand.2.1 (by rw [hand.1, hcf])
        have hbind : (some e).bind (candObserved cid fid) = none := by
          simp only [Option.some_bind]
          unfold candObserved
          rw [if_neg hcond1]
        rw [hbind]
        have hcond : ¬(cid ≠ fid ∧ (db.systems.filterMap (queryRowGen db cx cy cz r)).any
            (fun e => e.1.id64 == cid) = true) :=
          fun hand => hand.1 hcf
        rw [if_neg hcond]
        rfl

lemma flatMap_cand_eq_hits (db : GalaxyDatabase)
    (hs : (db.systems.map (fun r => r.id64)).Nodup)
    (r : ℚ) (cid : Int) (s : SystemData)
    (hlk : get_system_by_id64 db cid = some s)
    (hunc : unclaimedPop (get_population_by_id64 db cid) = true) :
    ∀ F : List (SystemData × PopulationData),
      F.flatMap (fun fsp =>
        (query_systems_by_radius db fsp.1.x fsp.1.y fsp.1.z r).filterMap
          (candObserved cid fsp.1.id64)) =
      (F.filter (fun fsp => decide (cid ≠ fsp.1.id64 ∧
        (query_systems_by_radius db fsp.1.x fsp.1.y fsp.1.z r).any
          (fun e => e.1.id64 == cid) = true))).map
        (fun fsp => (distSqTo fsp.1 s, fsp.1.id64)) := by
  intro F
  induction F with
  | nil => rfl
  | cons fsp F ih =>
    rw [List.flatMap_cons, ih,
      query_candObserved db hs fsp.1.x fsp.1.y fsp.1.z r cid fsp.1.id64 s hlk hunc,
      List.filter_cons]
    by_cases hc : cid ≠ fsp.1.id64 ∧
        (query_systems_by_radius db fsp.1.x fsp.1.y fsp.1.z r).any
          (fun e => e.1.id64 == cid) = true
    · rw [if_pos hc, if_pos (by simpa using hc), List.map_cons]
      simp [distSqTo]
    · rw [if_neg hc, if_neg (by simpa using hc)]
      simp

lemma output_entry_destruct (db : GalaxyDatabase)
    (hs : (db.systems.map (fun r => r.id64)).Nodup)
    (hp : (db.pops.map (fun p => p.id64)).Nodup)
    (faction_name : String) (refOpt : Option (String × ℚ)) (candidate_range : ℚ)
    (L : List (SystemData × Option PopulationData × ℚ × Int))
    (hL : find_colony_candidates db faction_name refOpt candidate_range = some L)
    (e : SystemData × Option PopulationData × ℚ × Int) (he : e ∈ L) :
    ∃ F entry, factionSystemsOf db faction_name refOpt = some F ∧
      entry ∈ gatherInfo db candidate_range F ∧
      get_system_by_id64 db entry.1 = some e.1 ∧
      e.1.id64 = entry.1 ∧
      unclaimedPop (get_population_by_id64 db entry.1) = true ∧
      e.2.2.1 = entry.2.1 ∧ e.2.2.2 = entry.2.2 := by
  obtain ⟨F, hF, hLeq⟩ := find_colony_output db faction_name refOpt candidate_range L hL
  rw [hLeq] at he
  obtain ⟨entry, hentry, hfin⟩ := List.mem_filterMap.mp he
  have hkid : entry.1 ∈ (gatherInfo db candidate_range F).map (fun e => e.1) :=
    List.mem_map_of_mem _ hentry
  simp only [finalizeCandidate] at hfin
  split at hfin
  · cases hfin
  · rename_i s hsome
    by_cases hun : unclaimedPop (dictGet (dictOf (fun p => p.id64)
        ((get_populations_by_id64s db
          ((gatherInfo db candidate_range F).map (fun e => e.1))).filterMap id))
        entry.1) = true
    · rw [if_pos hun] at hfin
      have he2 := Option.some.inj hfin
      have hsget := sysMap_get db hs
        ((gatherInfo db candidate_range F).map (fun e => e.1)) entry.1 hkid
      rw [hsome] at hsget
      have he1 : e.1 = s := (congrArg Prod.fst he2).symm
      have hlk1 : get_system_by_id64 db entry.1 = some e.1 := by
        rw [he1]; exact hsget.symm
      have hid1 : e.1.id64 = entry.1 := get_system_by_id64_id db entry.1 e.1 hlk1
      have hpget := popMap_get db hp
        ((gatherInfo db candidate_range F).map (fun e => e.1)) entry.1 hkid
      rw [hpget] at hun
      exact ⟨F, entry, hF, hentry, hlk1, hid1, hun,
        (congrArg (fun t => t.2.2.1) he2).symm,
        (congrArg (fun t => t.2.2.2) he2).symm⟩
    · rw [if_neg hun] at hfin
      cases hfin

/-- C4 (amended): for every entry of the final candidate output, the reported
(squared) distance is the minimum over all faction systems other than the
candidate itself whose candidate-radius query returned the candidate, of the
(squared) Euclidean distance from that faction system to the candidate; the
reported closest faction system is the first-enumerated one attaining that
minimum (updates happen only on strictly smaller distances, so first-seen
wins ties).  The "other than the candidate itself" restriction is forced by
the empty-faction-name case, where a faction system can itself be a
candidate and its own self-distance-zero observation is skipped. -/
theorem closest_faction_tracking (db : GalaxyDatabase)
    (hs : (db.systems.map (fun r => r.id64)).Nodup)
    (hp : (db.pops.map (fun p => p.id64)).Nodup)
    (faction_name : String) (refOpt : Option (String × ℚ)) (candidate_range : ℚ)
    (L : List (SystemData × Option PopulationData × ℚ × Int))
    (hL : find_colony_candidates db faction_name refOpt candidate_range = some L) :
    ∀ e ∈ L, ∃ F, factionSystemsOf db faction_name refOpt = some F ∧
      ∃ h1 fsp h2,
        F.filter (fun g => decide (e.1.id64 ≠ g.1.id64 ∧
          (query_systems_by_radius db g.1.x g.1.y g.1.z candidate_range).any
            (fun c => c.1.id64 == e.1.id64) = true)) = h1 ++ fsp :: h2 ∧
        e.2.2.2 = fsp.1.id64 ∧ e.2.2.1 = distSqTo fsp.1 e.1 ∧
        (∀ g ∈ h1, e.2.2.1 < distSqTo g.1 e.1) ∧
        (∀ g ∈ h2, e.2.2.1 ≤ distSqTo g.1 e.1) := by
  intro e he
  obtain ⟨F, entry, hF, hentry, hlk1, hid1, hunc1, hd, hfid⟩ :=
    output_entry_destruct db hs hp faction_name refOpt candidate_range L hL e he
  refine ⟨F, hF, ?_⟩
  have hinfo_get : dictGet (gatherInfo db candidate_range F) entry.1 = some entry.2 :=
    mem_dictGet _ (gatherInfo_keys_nodup db candidate_range F) entry hentry
  rw [gatherInfo_get,
    flatMap_cand_eq_hits db hs candidate_range entry.1 e.1 hlk1 hunc1 F] at hinfo_get
  obtain ⟨l1, b, l2, hsplit, hfb, h1, h2⟩ :=
    minFold_map_char (fun fsp : SystemData × PopulationData =>
      (distSqTo fsp.1 e.1, fsp.1.id64)) _ entry.2.1 entry.2.2
      hinfo_get
  refine ⟨l1, b, l2, ?_, ?_, ?_, ?_, ?_⟩
  · rw [hid1]
    exact hsplit
  · rw [hfid]
    exact (congrArg Prod.snd hfb).symm
  · rw [hd]
    exact (congrArg Prod.fst hfb).symm
  · intro g hg
    rw [hd]
    simpa using h1 g hg
  · intro g hg
    rw [hd]
    simpa using h2 g hg

/-- C4 counterexample: with the empty faction name, both unclaimed systems are
faction systems, and the candidate sNear is returned by its own radius query at
distance zero; the original claim's minimum over all faction systems whose query
returned the candidate is therefore 0, yet the output reports squared distance
25 for sNear, because the code skips the observation where the faction system is
the candidate itself. -/
theorem closest_faction_tracking_counterexample :
    find_colony_candidates exDbE "" none 10 =
      some [(sNear, some exPopC2, 25, 1), (sHome, some exPopC1, 25, 2)] ∧
    factionSystemsOf exDbE "" none = some [(sHome, exPopC1), (sNear, exPopC2)] ∧
    (sNear, exPopC2) ∈ [(sHome, exPopC1), (sNear, exPopC2)] ∧
    (sNear, some exPopC2, (0 : ℚ)) ∈
      query_systems_by_radius exDbE sNear.x sNear.y sNear.z 10 ∧
    distSqTo sNear sNear = 0 ∧ (25 : ℚ) ≠ 0 := by
  refine ⟨eval_colony, eval_F, by simp, ?_, ?_, by norm_num⟩
  · have hq : query_systems_by_radius exDbE sNear.x sNear.y sNear.z 10 =
        [(sHome, some exPopC1, 25), (sNear, some exPopC2, 0)] := eval_qB
    rw [hq]
    simp
  · norm_num [distSqTo, sNear]

theorem closest_faction_tracking_witness :
    (exDbW.systems.map (fun r => r.id64)).Nodup ∧
    (exDbW.pops.map (fun p => p.id64)).Nodup ∧
    (∃ F, factionSystemsOf exDbW "Reb" none = some F ∧
      ∃ h1 fsp h2,
        F.filter (fun g => decide ((sNear, (none : Option PopulationData),
            (25 : ℚ), (1 : Int)).1.id64 ≠ g.1.id64 ∧
          (query_systems_by_radius exDbW g.1.x g.1.y g.1.z 10).any
            (fun c => c.1.id64 == (sNear, (none : Option PopulationData),
              (25 : ℚ), (1 : Int)).1.id64) = true)) = h1 ++ fsp :: h2 ∧
        (sNear, (none : Option PopulationData), (25 : ℚ), (1 : Int)).2.2.2 =
          fsp.1.id64 ∧
        (sNear, (none : Option PopulationData), (25 : ℚ), (1 : Int)).2.2.1 =
          distSqTo fsp.1 (sNear, (none : Option PopulationData),
            (25 : ℚ), (1 : Int)).1 ∧
        (∀ g ∈ h1, (sNear, (none : Option PopulationData), (25 : ℚ),
          (1 : Int)).2.2.1 < distSqTo g.1 (sNear, (none : Option PopulationData),
            (25 : ℚ), (1 : Int)).1) ∧
        (∀ g ∈ h2, (sNear, (none : Option PopulationData), (25 : ℚ),
          (1 : Int)).2.2.1 ≤ distSqTo g.1 (sNear, (none : Option PopulationData),
            (25 : ℚ), (1 : Int)).1)) := by
  refine ⟨by decide, by decide, ?_⟩
  exact closest_faction_tracking exDbW (by decide) (by decide) "Reb" none 10
    [(sNear, none, 25, 1)] eval_colonyW (sNear, none, 25, 1)
    (List.mem_cons_self _ _)
